import Mathlib

/-!
Verification development for the dhara_rs flash translation layer
(journal + map over raw NAND).  The Rust sources are embedded shallowly:
u32 quantities become Nat (with range hypotheses where u32 wrapping could
differ), the NAND driver trait becomes a functional state, byte buffers
holding structured records (headers, metadata slots) become structures,
and stateful methods become explicit state-passing functions.
-/

namespace Dhara

/-- Error type, from src/lib.rs DharaError. -/
inductive DharaError where
  | BadBlock
  | ECC
  | TooBad
  | Recover
  | JournalFull
  | NotFound
  | MapFull
  | CorruptMap
  | Max
  deriving DecidableEq, Repr

/-- Decidable equality for Except results, so that concrete runs can be
checked by evaluation. -/
instance {ε α : Type} [DecidableEq ε] [DecidableEq α] : DecidableEq (Except ε α) :=
  fun a b =>
    match a, b with
    | .ok x, .ok y =>
      match decEq x y with
      | isTrue h => isTrue (h ▸ rfl)
      | isFalse h => isFalse (fun hc => h (Except.ok.inj hc))
    | .error x, .error y =>
      match decEq x y with
      | isTrue h => isTrue (h ▸ rfl)
      | isFalse h => isFalse (fun hc => h (Except.error.inj hc))
    | .ok _, .error _ => isFalse (fun hc => Except.noConfusion hc)
    | .error _, .ok _ => isFalse (fun hc => Except.noConfusion hc)

/-- journal.rs: DHARA_HEADER_SIZE. -/
def HEADER_SIZE : Nat := 16
/-- journal.rs: DHARA_COOKIE_SIZE. -/
def COOKIE_SIZE : Nat := 4
/-- journal.rs: DHARA_META_SIZE. -/
def META_SIZE : Nat := 132
/-- journal.rs: DHARA_MAX_RETRIES. -/
def MAX_RETRIES : Nat := 8
/-- journal.rs: DHARA_PAGE_NONE (0xffffffff). -/
def PAGE_NONE : Nat := 4294967295
/-- lib.rs: DHARA_SECTOR_NONE (0xffffffff). -/
def SECTOR_NONE : Nat := 4294967295
/-- lib.rs: DHARA_RADIX_DEPTH = 32 (bits of a sector id). -/
def RADIX_DEPTH : Nat := 32

/-- journal.rs choose_ppc: loop body.  The Rust loop
`while ppc < max { total = 2*total + 132; if total > max_meta break; ppc += 1 }`
is modelled by structural recursion on the remaining iteration budget
`max - ppc`; the arguments carry the loop variables total and ppc. -/
def choosePpcLoop (max_meta : Nat) : Nat → Nat → Nat → Nat
  | 0, _, ppc => ppc
  | fuel + 1, total, ppc =>
    let t := 2 * total + META_SIZE
    if t > max_meta then ppc
    else choosePpcLoop max_meta fuel t (ppc + 1)

/-- journal.rs choose_ppc: the largest checkpoint period exponent such that
(2^ppc - 1) metadata slots fit on a page together with header and cookie. -/
def choose_ppc (log2_psize max : Nat) : Nat :=
  let max_meta : Nat := (1 <<< log2_psize) - HEADER_SIZE - COOKIE_SIZE
  choosePpcLoop max_meta (max - 1) META_SIZE 1

-- Sanity checks mirroring journal.rs unit tests.
example : choose_ppc 11 6 = 4 := by decide
example : choose_ppc 9 3 = 2 := by decide

theorem choosePpcLoop_invariant (max_meta : Nat) :
    ∀ fuel total ppc, total = (2 ^ ppc - 1) * META_SIZE → total ≤ max_meta →
      1 ≤ ppc →
      let r := choosePpcLoop max_meta fuel total ppc
      ppc ≤ r ∧ r ≤ ppc + fuel ∧ (2 ^ r - 1) * META_SIZE ≤ max_meta ∧
        (r < ppc + fuel → (2 ^ (r + 1) - 1) * META_SIZE > max_meta) := by
  intro fuel
  induction fuel with
  | zero =>
    intro total ppc ht hle hp
    simp only [choosePpcLoop]
    exact ⟨le_refl _, by omega, by rw [← ht]; exact hle, by omega⟩
  | succ f ih =>
    intro total ppc ht hle hp
    have h2 : 2 ^ (ppc + 1) - 1 = 2 * (2 ^ ppc - 1) + 1 := by
      have : 1 ≤ 2 ^ ppc := Nat.one_le_two_pow
      rw [pow_succ]
      omega
    have htot : 2 * total + META_SIZE = (2 ^ (ppc + 1) - 1) * META_SIZE := by
      rw [h2, ht]; ring
    simp only [choosePpcLoop]
    by_cases hbr : 2 * total + META_SIZE > max_meta
    · rw [if_pos hbr]
      refine ⟨le_refl _, by omega, by rw [← ht]; exact hle, ?_⟩
      intro _
      rw [← htot]
      exact hbr
    · rw [if_neg hbr]
      push_neg at hbr
      have := ih (2 * total + META_SIZE) (ppc + 1) htot hbr (by omega)
      exact ⟨by omega, by omega, this.2.2.1, fun hlt => this.2.2.2 (by omega)⟩

/-- C8: for every page size 2^log2_psize large enough to hold one metadata
slot plus header and cookie, and every log2_ppb ≥ 1, the value computed by
choose_ppc is the largest ppc with (2^ppc - 1)·132 + 16 + 4 ≤ 2^log2_psize
and ppc ≤ log2_ppb (the candidate set also requires ppc ≥ 1). -/
theorem choose_ppc_is_greatest (psize ppb : Nat)
    (hps : META_SIZE + HEADER_SIZE + COOKIE_SIZE ≤ 2 ^ psize) (hppb : 1 ≤ ppb) :
    IsGreatest {p | 1 ≤ p ∧ p ≤ ppb ∧
        (2 ^ p - 1) * META_SIZE + HEADER_SIZE + COOKIE_SIZE ≤ 2 ^ psize}
      (choose_ppc psize ppb) := by
  have hsz : META_SIZE = 132 ∧ HEADER_SIZE = 16 ∧ COOKIE_SIZE = 4 := by decide
  have hshift : (1 <<< psize : Nat) = 2 ^ psize := by
    rw [Nat.shiftLeft_eq, one_mul]
  set max_meta : Nat := (1 <<< psize) - HEADER_SIZE - COOKIE_SIZE with hmm
  have hmm' : max_meta = 2 ^ psize - 20 := by rw [hmm, hshift]; omega
  have h20 : 20 ≤ 2 ^ psize := by omega
  have hinv := choosePpcLoop_invariant max_meta (ppb - 1) META_SIZE 1
    (by norm_num) (by omega) (le_refl 1)
  simp only at hinv
  obtain ⟨h1, h2, h3, h4⟩ := hinv
  have hcp : choose_ppc psize ppb = choosePpcLoop max_meta (ppb - 1) META_SIZE 1 := rfl
  constructor
  · rw [Set.mem_setOf_eq, hcp]
    exact ⟨h1, by omega, by omega⟩
  · intro p hp
    obtain ⟨hp1, hp2, hp3⟩ := hp
    by_contra hgt
    push_neg at hgt
    rw [hcp] at hgt
    set r := choosePpcLoop max_meta (ppb - 1) META_SIZE 1 with hr
    have hlt : r < 1 + (ppb - 1) := by omega
    have hbig := h4 hlt
    have hmono : 2 ^ (r + 1) ≤ 2 ^ p := Nat.pow_le_pow_right (by norm_num) (by omega)
    have : (2 ^ (r + 1) - 1) * META_SIZE ≤ (2 ^ p - 1) * META_SIZE :=
      Nat.mul_le_mul_right _ (by omega)
    omega

/-- Witness for C8 at the geometry of the repository's SimpleNand test
(512-byte pages, 8 pages per block): choose_ppc yields 2. -/
theorem choose_ppc_is_greatest_witness :
    (META_SIZE + HEADER_SIZE + COOKIE_SIZE ≤ 2 ^ 9) ∧ (1 ≤ 3) ∧
    IsGreatest {p | 1 ≤ p ∧ p ≤ 3 ∧
        (2 ^ p - 1) * META_SIZE + HEADER_SIZE + COOKIE_SIZE ≤ 2 ^ 9}
      (choose_ppc 9 3) :=
  ⟨by decide, by decide, choose_ppc_is_greatest 9 3 (by decide) (by decide)⟩

/-! ## u32 arithmetic helpers

Pages and blocks are u32 in the source.  We embed them as Nat; at the few
spots where the source's u32 arithmetic can wrap (subtractions involving
PAGE_NONE sentinels or binary-search bounds), we use explicit mod-2^32
operations. -/

/-- 2^32, the u32 modulus. -/
def U32 : Nat := 4294967296

/-- u32 wrapping addition. -/
def u32add (a b : Nat) : Nat := (a + b) % U32

/-- u32 wrapping subtraction. -/
def u32sub (a b : Nat) : Nat := (a % U32 + U32 - b % U32) % U32

/-! ## Page geometry helpers (journal.rs, free functions) -/

/-- journal.rs is_aligned: p & ((1 << n) - 1) == 0. -/
def is_aligned (p n : Nat) : Bool := p &&& ((1 <<< n) - 1) == 0

/-- journal.rs align_eq: (a ^ b) >> n == 0. -/
def align_eq (a b n : Nat) : Bool := (a ^^^ b) >>> n == 0

/-- journal.rs wrap. -/
def wrap (a b : Nat) : Nat := if a ≥ b then a - b else a

/-- Embedding of the u32 expression p & !((1 << n) - 1) (clear the low n
bits); for p < 2^32 this equals (p >> n) << n. -/
def alignDownBits (p n : Nat) : Nat := (p >>> n) <<< n

theorem is_aligned_iff_mod (p n : Nat) : is_aligned p n = true ↔ p % 2 ^ n = 0 := by
  unfold is_aligned
  rw [Nat.shiftLeft_eq, one_mul, Nat.and_pow_two_sub_one_eq_mod, beq_iff_eq]

theorem shiftRight_xor_distrib (a b n : Nat) :
    (a ^^^ b) >>> n = (a >>> n) ^^^ (b >>> n) := by
  apply Nat.eq_of_testBit_eq
  intro i
  simp [Nat.testBit_shiftRight, Nat.testBit_xor]

theorem align_eq_iff_div (a b n : Nat) : align_eq a b n = true ↔ a / 2 ^ n = b / 2 ^ n := by
  unfold align_eq
  rw [beq_iff_eq, shiftRight_xor_distrib, Nat.xor_eq_zero,
    Nat.shiftRight_eq_div_pow, Nat.shiftRight_eq_div_pow]

-- Sanity checks mirroring journal.rs unit tests.
example : is_aligned 128 6 = true := by decide
example : is_aligned 129 6 = false := by decide
example : align_eq 17 18 2 = true := by decide
example : align_eq 27 18 2 = false := by decide
example : wrap 7 3 = 4 := by decide
example : wrap 3 7 = 3 := by decide

/-! ## Metadata slots and the staging page buffer

A metadata slot is a 132-byte array: 4 bytes of sector id followed by
32 little-endian u32 alt-pointers (lib.rs meta_get_id / meta_get_alt).
We embed it structurally, with the byte-level r32/w32 codec elided; a
slot filled with 0xFF bytes decodes to id = SECTOR_NONE and every
alt-pointer = PAGE_NONE. -/
structure Meta where
  id : Nat
  alt : List Nat
  deriving DecidableEq, Repr

/-- A metadata slot whose 132 bytes are all 0xFF. -/
def blankMeta : Meta := ⟨SECTOR_NONE, List.replicate RADIX_DEPTH SECTOR_NONE⟩

/-- lib.rs meta_get_id. -/
def meta_get_id (m : Meta) : Nat := m.id

/-- lib.rs meta_set_id. -/
def meta_set_id (m : Meta) (v : Nat) : Meta := { m with id := v }

/-- lib.rs meta_get_alt. -/
def meta_get_alt (m : Meta) (level : Nat) : Nat := m.alt.getD level SECTOR_NONE

/-- lib.rs meta_set_alt. -/
def meta_set_alt (m : Meta) (level alt : Nat) : Meta := { m with alt := m.alt.set level alt }

/-- The journal's page-sized staging buffer (journal.rs page_buf),
embedded structurally following the meta-page layout of
map_internals.txt: magic "Dha" (modelled as a Bool: the three magic
bytes are present), epoch byte, tail/bb_current/bb_last header words,
the 4-byte cookie, and the packed metadata slots of the current
checkpoint group. -/
structure PageBuf where
  magic : Bool
  epoch : Nat
  hdrTail : Nat
  hdrBbCurrent : Nat
  hdrBbLast : Nat
  cookie : Nat
  slots : List Meta
  deriving DecidableEq, Repr

/-- A page buffer filled with 0xFF bytes (reset_journal does
page_buf.fill(0xFF)): no magic, epoch byte 0xFF, header words and the
cookie all 0xFFFFFFFF, and 2^ppc - 1 blank slots. -/
def blankBuf (log2_ppc : Nat) : PageBuf :=
  ⟨false, 255, PAGE_NONE, PAGE_NONE, PAGE_NONE, PAGE_NONE,
    List.replicate ((1 <<< log2_ppc) - 1) blankMeta⟩

/-- Contents of one physical NAND page: erased, programmed with raw
user data, or programmed with a meta-page image (the staging buffer). -/
inductive PageData where
  | free
  | user (data : List Nat)
  | metaP (buf : PageBuf)
  deriving DecidableEq, Repr

/-- Functional model of a NAND chip behind the DharaNand trait
(nand.rs).  Geometry is static; bad-block marks, free flags and page
contents are total functions of the page/block number; the *Err fields
inject per-operation failures (none in a fault-free run), covering
drivers that report BadBlock/ECC errors. -/
structure Nand where
  log2_page_size : Nat
  log2_ppb : Nat
  num_blocks : Nat
  bad : Nat → Bool
  freeFn : Nat → Bool
  page : Nat → PageData
  progErr : Nat → Option DharaError
  eraseErr : Nat → Option DharaError
  copyErr : Nat → Nat → Option DharaError
  readErr : Nat → Option DharaError

/-- nand.rs is_bad. -/
def Nand.is_bad (n : Nand) (blk : Nat) : Bool := n.bad blk

/-- nand.rs mark_bad. -/
def Nand.mark_bad (n : Nand) (blk : Nat) : Nand :=
  { n with bad := fun b => b == blk || n.bad b }

/-- nand.rs is_free. -/
def Nand.is_free (n : Nand) (p : Nat) : Bool := n.freeFn p

/-- nand.rs erase: on success every page of the block becomes free. -/
def Nand.erase (n : Nand) (blk : Nat) : Except DharaError Unit × Nand :=
  match n.eraseErr blk with
  | some e => (.error e, n)
  | none => (.ok (), { n with
      page := fun p => if p >>> n.log2_ppb == blk then .free else n.page p,
      freeFn := fun p => if p >>> n.log2_ppb == blk then true else n.freeFn p })

/-- nand.rs prog: on success the page holds the programmed content and
is no longer free. -/
def Nand.prog (n : Nand) (p : Nat) (d : PageData) : Except DharaError Unit × Nand :=
  match n.progErr p with
  | some e => (.error e, n)
  | none => (.ok (), { n with
      page := fun q => if q == p then d else n.page q,
      freeFn := fun q => if q == p then false else n.freeFn q })

/-- nand.rs copy: on success dst holds a copy of src's content. -/
def Nand.copy (n : Nand) (src dst : Nat) : Except DharaError Unit × Nand :=
  match n.copyErr src dst with
  | some e => (.error e, n)
  | none => (.ok (), { n with
      page := fun q => if q == dst then n.page src else n.page q,
      freeFn := fun q => if q == dst then false else n.freeFn q })

/-- Decoding a whole page read into the staging buffer (used by the
resume scans, which read a full page into page_buf).  An erased page
reads back as all-0xFF; a raw data page never aliases a checkpoint
header in this model (the journal only ever header-reads meta-page
positions, which hold either a programmed meta image or 0xFF). -/
def bufOfPage (log2_ppc : Nat) : PageData → PageBuf
  | .free => blankBuf log2_ppc
  | .user _ => blankBuf log2_ppc
  | .metaP b => b

/-- nand.rs read of a full page into the staging buffer. -/
def Nand.readBuf (n : Nand) (log2_ppc p : Nat) : Except DharaError PageBuf :=
  match n.readErr p with
  | some e => .error e
  | none => .ok (bufOfPage log2_ppc (n.page p))

/-- nand.rs read of one 132-byte metadata slot at the slot offset of
`which` from a meta page (journal.rs journal_read_meta's NAND cases). -/
def Nand.readMetaSlot (n : Nand) (metaPage which : Nat) : Except DharaError Meta :=
  match n.readErr metaPage with
  | some e => .error e
  | none => .ok (match n.page metaPage with
      | .metaP b => b.slots.getD which blankMeta
      | .free => blankMeta
      | .user _ => blankMeta)

/-- nand.rs read of a full data page into a caller buffer of the given
length (lib.rs read). -/
def Nand.readData (n : Nand) (p len : Nat) : Except DharaError (List Nat) :=
  match n.readErr p with
  | some e => .error e
  | none => .ok (match n.page p with
      | .user d => d
      | .free => List.replicate len 255
      | .metaP _ => List.replicate len 0)

/-! ## Journal state (journal.rs DharaJournal)

The u8 flags bitset is embedded as four Bools (DIRTY, BAD_META,
RECOVERY, ENUM_DONE). -/
structure JState where
  nand : Nand
  page_buf : PageBuf
  log2_ppc : Nat
  epoch : Nat
  dirty : Bool
  bad_meta : Bool
  recovery : Bool
  enum_done : Bool
  bb_current : Nat
  bb_last : Nat
  tail_sync : Nat
  tail : Nat
  head : Nat
  root : Nat
  recover_next : Nat
  recover_root : Nat
  recover_meta : Nat

/-- Total number of pages on the chip, num_blocks << log2_ppb. -/
def chipSize (j : JState) : Nat := j.nand.num_blocks <<< j.nand.log2_ppb

/-! Meta-page header accessors (journal.rs hdr_*), acting on the staging
buffer. -/

def hdr_has_magic (j : JState) : Bool := j.page_buf.magic

def hdr_put_magic (j : JState) : JState :=
  { j with page_buf := { j.page_buf with magic := true } }

def hdr_get_epoch (j : JState) : Nat := j.page_buf.epoch

def hdr_set_epoch (j : JState) (e : Nat) : JState :=
  { j with page_buf := { j.page_buf with epoch := e } }

def hdr_get_tail (j : JState) : Nat := j.page_buf.hdrTail

def hdr_set_tail (j : JState) (t : Nat) : JState :=
  { j with page_buf := { j.page_buf with hdrTail := t } }

def hdr_get_bb_current (j : JState) : Nat := j.page_buf.hdrBbCurrent

def hdr_set_bb_current (j : JState) (v : Nat) : JState :=
  { j with page_buf := { j.page_buf with hdrBbCurrent := v } }

def hdr_get_bb_last (j : JState) : Nat := j.page_buf.hdrBbLast

def hdr_set_bb_last (j : JState) (v : Nat) : JState :=
  { j with page_buf := { j.page_buf with hdrBbLast := v } }

/-- journal.rs hdr_clear_user: fill the user metadata area (after
header + cookie) with 0xFF, i.e. blank every slot. -/
def hdr_clear_user (j : JState) : JState :=
  { j with page_buf := { j.page_buf with
      slots := List.replicate ((1 <<< j.log2_ppc) - 1) blankMeta } }

/-- journal.rs get_cookie. -/
def get_cookie (j : JState) : Nat := j.page_buf.cookie

/-- journal.rs set_cookie. -/
def set_cookie (j : JState) (v : Nat) : JState :=
  { j with page_buf := { j.page_buf with cookie := v } }

/-- journal.rs next_block. -/
def JState.next_block (j : JState) (blk : Nat) : Nat :=
  let b := blk + 1
  if b ≥ j.nand.num_blocks then 0 else b

/-- journal.rs next_upage. -/
def JState.next_upage (j : JState) (page : Nat) : Nat :=
  let p1 := page + 1
  let p2 := if is_aligned (p1 + 1) j.log2_ppc then p1 + 1 else p1
  if p2 ≥ chipSize j then 0 else p2

/-- journal.rs clear_recovery. -/
def clear_recovery (j : JState) : JState :=
  { j with recover_next := PAGE_NONE, recover_root := PAGE_NONE,
           recover_meta := PAGE_NONE,
           bad_meta := false, recovery := false, enum_done := false }

/-- journal.rs reset_journal. -/
def reset_journal (j : JState) : JState :=
  clear_recovery { j with
    epoch := 0,
    bb_last := j.nand.num_blocks >>> 6,
    bb_current := 0,
    dirty := false, bad_meta := false, recovery := false, enum_done := false,
    head := 0, tail := 0, tail_sync := 0, root := PAGE_NONE,
    page_buf := blankBuf j.log2_ppc }

/-- journal.rs roll_stats (the epoch is a u8 and wraps). -/
def roll_stats (j : JState) : JState :=
  { j with bb_last := j.bb_current, bb_current := 0, epoch := (j.epoch + 1) % 256 }

/-- The pervasive source idiom: if head == 0 { roll_stats() }. -/
def rollIfZero (j : JState) : JState := if j.head == 0 then roll_stats j else j

/-- journal.rs DharaJournal::new (the caller-supplied page buffer starts
unspecified and is immediately 0xFF-filled by reset_journal). -/
def journal_new (nand : Nand) : JState :=
  let ppc := choose_ppc nand.log2_page_size nand.log2_ppb
  reset_journal {
    nand := nand, page_buf := blankBuf ppc, log2_ppc := ppc,
    epoch := 0, dirty := false, bad_meta := false, recovery := false,
    enum_done := false, bb_current := 0, bb_last := 0,
    tail_sync := 0, tail := 0, head := 0, root := PAGE_NONE,
    recover_next := 0, recover_root := 0, recover_meta := 0 }

/-- journal.rs journal_capacity. -/
def journal_capacity (j : JState) : Nat :=
  let max_bad := if j.bb_last < j.bb_current then j.bb_last else j.bb_current
  let good_blocks := j.nand.num_blocks - max_bad - 1
  let log2_cpb := j.nand.log2_ppb - j.log2_ppc
  let good_cps := good_blocks <<< log2_cpb
  (good_cps <<< j.log2_ppc) - good_cps

/-- journal.rs journal_size. -/
def journal_size (j : JState) : Nat :=
  let num_pages := j.head
  let num_cps := j.head >>> j.log2_ppc
  let total_pages := chipSize j
  let num_pages := if j.head < j.tail_sync then num_pages + total_pages else num_pages
  let num_cps := if j.head < j.tail_sync then num_cps + (total_pages >>> j.log2_ppc) else num_cps
  (num_pages - j.tail_sync) - (num_cps - (j.tail_sync >>> j.log2_ppc))

/-- journal.rs journal_root. -/
def journal_root (j : JState) : Nat := j.root

/-- journal.rs journal_is_clean. -/
def journal_is_clean (j : JState) : Bool := !j.dirty

/-- journal.rs journal_mark_dirty. -/
def journal_mark_dirty (j : JState) : JState := { j with dirty := true }

/-- journal.rs journal_in_recovery. -/
def journal_in_recovery (j : JState) : Bool := j.recovery

/-- journal.rs journal_read_meta.  The three cases in order: metadata
buffered in the staging buffer for the head group; metadata dumped to
recover_meta at the start of a recovery; the general case reading from
the group's meta-page. -/
def journal_read_meta (j : JState) (page : Nat) : Except DharaError Meta :=
  let ppc_mask := (1 <<< j.log2_ppc) - 1
  let which := page &&& ppc_mask
  if align_eq page j.head j.log2_ppc then
    .ok (j.page_buf.slots.getD which blankMeta)
  else if decide (j.recover_meta ≠ PAGE_NONE) && align_eq page j.recover_root j.log2_ppc then
    j.nand.readMetaSlot j.recover_meta which
  else
    j.nand.readMetaSlot (page ||| ppc_mask) which

/-- journal.rs journal_peek: the bad-block-skipping retry loop.  On a
good (or head-containing) block the source sets tail to the block's
first page, clears root if the journal became empty, and returns the
new tail; the two branches of that root update are written out here. -/
def peekLoop (j : JState) : Nat → Nat → Nat × JState
  | _, 0 => (j.tail, j)
  | block, fuel + 1 =>
    if block == j.head >>> j.nand.log2_ppb || !(j.nand.is_bad block) then
      if block <<< j.nand.log2_ppb == j.head then
        (block <<< j.nand.log2_ppb,
          { j with tail := block <<< j.nand.log2_ppb, root := PAGE_NONE })
      else
        (block <<< j.nand.log2_ppb, { j with tail := block <<< j.nand.log2_ppb })
    else peekLoop j (j.next_block block) fuel

/-- journal.rs journal_peek. -/
def journal_peek (j : JState) : Nat × JState :=
  if j.head == j.tail then (PAGE_NONE, j)
  else if is_aligned j.tail j.nand.log2_ppb then
    peekLoop j (j.tail >>> j.nand.log2_ppb) MAX_RETRIES
  else (j.tail, j)

/-- journal.rs journal_dequeue.  The root-offset computation uses u32
arithmetic because root may be the PAGE_NONE sentinel. -/
def journal_dequeue (j : JState) : JState :=
  if j.head == j.tail then j
  else
    let j1 := { j with tail := j.next_upage j.tail }
    let j2 := if !j1.dirty && !j1.recovery then { j1 with tail_sync := j1.tail } else j1
    let chip := chipSize j2
    let raw_size := wrap (u32sub (u32add j2.head chip) j2.tail) chip
    let root_offset := wrap (u32sub (u32add j2.head chip) j2.root) chip
    if root_offset > raw_size then { j2 with root := PAGE_NONE } else j2

/-- journal.rs journal_clear. -/
def journal_clear (j : JState) : JState :=
  hdr_clear_user { j with tail := j.head, root := PAGE_NONE, dirty := true }

/-- journal.rs journal_next_recoverable. -/
def journal_next_recoverable (j : JState) : Nat × JState :=
  let n := j.recover_next
  if !(journal_in_recovery j) then (PAGE_NONE, j)
  else if j.enum_done then (PAGE_NONE, j)
  else if j.recover_next == j.recover_root then (n, { j with enum_done := true })
  else (n, { j with recover_next := j.next_upage j.recover_next })

/-! ## Journal write path (journal.rs private methods) -/

/-- journal.rs skip_block. -/
def skip_block (j : JState) : Except DharaError Unit × JState :=
  let next := j.next_block (j.head >>> j.nand.log2_ppb)
  if j.tail_sync >>> j.nand.log2_ppb == next then (.error .JournalFull, j)
  else
    let j1 := { j with head := next <<< j.nand.log2_ppb }
    (.ok (), rollIfZero j1)

/-- journal.rs prepare_head: the bad-block skipping/erase retry loop. -/
def prepareHeadLoop (j : JState) : Nat → Except DharaError Unit × JState
  | 0 => (.error .TooBad, j)
  | fuel + 1 =>
    let block := j.head >>> j.nand.log2_ppb
    if !(j.nand.is_bad block) then
      let (r, n1) := j.nand.erase block
      (r, { j with nand := n1 })
    else
      let j1 := { j with bb_current := j.bb_current + 1 }
      match skip_block j1 with
      | (.error e, j2) => (.error e, j2)
      | (.ok _, j2) => prepareHeadLoop j2 fuel

/-- journal.rs prepare_head. -/
def prepare_head (j : JState) : Except DharaError Unit × JState :=
  let next := j.next_upage j.head
  if align_eq next j.tail_sync j.nand.log2_ppb
      && !(align_eq next j.head j.nand.log2_ppb) then
    (.error .JournalFull, j)
  else
    let j1 := { j with dirty := true }
    if !(is_aligned j1.head j1.nand.log2_ppb) then (.ok (), j1)
    else prepareHeadLoop j1 MAX_RETRIES

/-- journal.rs restart_recovery. -/
def restart_recovery (j : JState) (old_head : Nat) : JState :=
  let j1 :=
    if j.recover_meta == PAGE_NONE
        || !(align_eq j.recover_meta old_head j.nand.log2_ppb) then
      { j with nand := j.nand.mark_bad (old_head >>> j.nand.log2_ppb) }
    else { j with bad_meta := true }
  { j1 with
    enum_done := false
    recover_next := alignDownBits j1.recover_root j1.nand.log2_ppb
    root := j1.recover_root }

/-- journal.rs finish_recovery. -/
def finish_recovery (j : JState) : JState :=
  let j1 := { j with nand := j.nand.mark_bad (j.recover_root >>> j.nand.log2_ppb) }
  let j2 :=
    if j1.bad_meta then
      { j1 with nand := j1.nand.mark_bad (j1.recover_meta >>> j1.nand.log2_ppb) }
    else j1
  clear_recovery j2

/-- journal.rs dump_meta: one attempt of the loop body (prepare the
head and program the buffered metadata there; on success remember the
dump page, advance the head and blank the user slots). -/
def dumpMetaAttempt (j : JState) : Except DharaError Unit × JState :=
  match prepare_head j with
  | (.error e, j1) => (.error e, j1)
  | (.ok _, j1) =>
    let (r, n1) := j1.nand.prog j1.head (.metaP j1.page_buf)
    let j2 := { j1 with nand := n1 }
    match r with
    | .error e => (.error e, j2)
    | .ok _ =>
      let j3 := { j2 with recover_meta := j2.head, head := j2.next_upage j2.head }
      (.ok (), hdr_clear_user (rollIfZero j3))

/-- journal.rs dump_meta: write the buffered metadata of an unfinished
checkpoint group to a fresh page at the start of a recovery.  On a
BadBlock failure, count the bad block, mark it, skip it and retry. -/
def dumpMetaLoop (j : JState) : Nat → Except DharaError Unit × JState
  | 0 => (.error .TooBad, j)
  | fuel + 1 =>
    match dumpMetaAttempt j with
    | (.ok _, j2) => (.ok (), j2)
    | (.error .BadBlock, j2) =>
      let j4 := { j2 with
        bb_current := j2.bb_current + 1
        nand := j2.nand.mark_bad (j2.head >>> j2.nand.log2_ppb) }
      match skip_block j4 with
      | (.error e2, j5) => (.error e2, j5)
      | (.ok _, j5) => dumpMetaLoop j5 fuel
    | (.error e, j2) => (.error e, j2)

/-- journal.rs dump_meta. -/
def dump_meta (j : JState) : Except DharaError Unit × JState :=
  dumpMetaLoop j MAX_RETRIES

/-- journal.rs recover_from. -/
def recover_from (j : JState) (write_err : DharaError) : Except DharaError Unit × JState :=
  let old_head := j.head
  match write_err with
  | .BadBlock =>
    let j1 := { j with bb_current := j.bb_current + 1 }
    match skip_block j1 with
    | (.error e, j2) => (.error e, j2)
    | (.ok _, j2) =>
      if journal_in_recovery j2 then (.error .Recover, restart_recovery j2 old_head)
      else if is_aligned old_head j2.nand.log2_ppb then
        (.ok (), { j2 with nand := j2.nand.mark_bad (old_head >>> j2.nand.log2_ppb) })
      else
        let j3 := { j2 with recover_root := j2.root }
        let j4 := { j3 with
          recover_next := alignDownBits j3.recover_root j3.nand.log2_ppb }
        if !(is_aligned old_head j4.log2_ppc) then
          match dump_meta j4 with
          | (.error e, j5) => (.error e, j5)
          | (.ok _, j5) => (.error .Recover, { j5 with recovery := true })
        else (.error .Recover, { j4 with recovery := true })
  | e => (.error e, j)

/-- journal.rs push_meta, tail end of the checkpoint-commit branch
after the successful meta-page program: roll stats on wrap, finish a
pending recovery when ENUM_DONE, and advance tail_sync outside
recovery. -/
def pushMetaFinish (j3 : JState) : Except DharaError Unit × JState :=
  let j4 := rollIfZero j3
  let j5 := if j4.enum_done then finish_recovery j4 else j4
  if !j5.recovery then (.ok (), { j5 with tail_sync := j5.tail })
  else (.ok (), j5)

/-- journal.rs push_meta: record the metadata slot for the page just
written at head; on a checkpoint boundary, stamp the header and program
the meta-page. -/
def push_meta (j : JState) (meta : Option Meta) : Except DharaError Unit × JState :=
  let old_head := j.head
  let which := j.head &&& ((1 <<< j.log2_ppc) - 1)
  let slot := match meta with | some m => m | none => blankMeta
  let j1 := { j with page_buf := { j.page_buf with slots := j.page_buf.slots.set which slot } }
  if !(is_aligned (j1.head + 2) j1.log2_ppc) then
    (.ok (), { j1 with root := j1.head, head := j1.head + 1 })
  else
    let j2 := hdr_set_bb_last (hdr_set_bb_current (hdr_set_tail (hdr_set_epoch
      (hdr_put_magic j1) j1.epoch) j1.tail) j1.bb_current) j1.bb_last
    let (r, n1) := j2.nand.prog (j2.head + 1) (.metaP j2.page_buf)
    match r with
    | .error e => recover_from { j2 with nand := n1 } e
    | .ok _ =>
      pushMetaFinish { j2 with
        nand := n1
        dirty := false
        root := old_head
        head := j2.next_upage j2.head }

/-- journal.rs journal_enqueue: the retry loop. -/
def enqueueLoop (j : JState) (data : Option (List Nat)) (meta : Option Meta) :
    Nat → Except DharaError Unit × JState
  | 0 => (.error .TooBad, j)
  | fuel + 1 =>
    match prepare_head j with
    | (.ok _, j1) =>
      match data with
      | some d =>
        let (r, n1) := j1.nand.prog j1.head (.user d)
        let j2 := { j1 with nand := n1 }
        match r with
        | .ok _ => push_meta j2 meta
        | .error e =>
          match recover_from j2 e with
          | (.error e2, j3) => (.error e2, j3)
          | (.ok _, j3) => enqueueLoop j3 data meta fuel
      | none => push_meta j1 meta
    | (.error e, j1) =>
      match recover_from j1 e with
      | (.error e2, j2) => (.error e2, j2)
      | (.ok _, j2) => enqueueLoop j2 data meta fuel

/-- journal.rs journal_enqueue. -/
def journal_enqueue (j : JState) (data : Option (List Nat)) (meta : Option Meta) :
    Except DharaError Unit × JState :=
  enqueueLoop j data meta MAX_RETRIES

/-- journal.rs journal_copy: the retry loop. -/
def copyLoop (j : JState) (page : Nat) (meta : Option Meta) :
    Nat → Except DharaError Unit × JState
  | 0 => (.error .TooBad, j)
  | fuel + 1 =>
    let (att, j2) : Except DharaError Unit × JState :=
      match prepare_head j with
      | (.error e, j1) => (.error e, j1)
      | (.ok _, j1) =>
        let (r, n1) := j1.nand.copy page j1.head
        (r, { j1 with nand := n1 })
    match att with
    | .ok _ => push_meta j2 meta
    | .error e =>
      match recover_from j2 e with
      | (.error e2, j3) => (.error e2, j3)
      | (.ok _, j3) => copyLoop j3 page meta fuel

/-- journal.rs journal_copy. -/
def journal_copy (j : JState) (page : Nat) (meta : Option Meta) :
    Except DharaError Unit × JState :=
  copyLoop j page meta MAX_RETRIES

/-! ## Journal resume path (journal.rs setup/resume helpers) -/

/-- journal.rs find_checkblock: scan forward (at most MAX_RETRIES
blocks) for a block whose first checkpoint position carries the header
magic.  A successful whole-page read loads the staging buffer. -/
def findCheckblockLoop (j : JState) : Nat → Nat → Except DharaError Nat × JState
  | _, 0 => (.error .TooBad, j)
  | blk, fuel + 1 =>
    if blk < j.nand.num_blocks then
      let p := (blk <<< j.nand.log2_ppb) ||| ((1 <<< j.log2_ppc) - 1)
      if !(j.nand.is_bad blk) then
        match j.nand.readBuf j.log2_ppc p with
        | .error _ => findCheckblockLoop j (blk + 1) fuel
        | .ok buf =>
          let j1 := { j with page_buf := buf }
          if hdr_has_magic j1 then (.ok blk, j1)
          else findCheckblockLoop j1 (blk + 1) fuel
      else findCheckblockLoop j (blk + 1) fuel
    else (.error .TooBad, j)

/-- journal.rs find_checkblock. -/
def find_checkblock (j : JState) (blk : Nat) : Except DharaError Nat × JState :=
  findCheckblockLoop j blk MAX_RETRIES

/-- journal.rs find_last_checkblock: binary search for the last block
carrying a checkpoint of the current epoch.  The while loop is modelled
with an iteration budget; the search interval shrinks every iteration,
so num_blocks + 2 iterations always suffice, and the budget-exhaustion
value coincides with the loop-exit value `first`. -/
def findLastCheckblockLoop (j : JState) (first : Nat) : Nat → Nat → Nat → Nat × JState
  | low, high, fuel + 1 =>
    if low ≤ high then
      let mid := (u32add low high) >>> 1
      let (found, j1) := find_checkblock j mid
      let bad := (match found with | .error _ => true | .ok _ => false)
                  || (hdr_get_epoch j1 != j1.epoch)
      if bad then
        if mid == 0 then (first, j1)
        else findLastCheckblockLoop j1 first low (mid - 1) fuel
      else
        let fnd := match found with | .ok v => v | .error _ => 0
        if fnd + 1 ≥ j1.nand.num_blocks then (fnd, j1)
        else
          let (nf, j2) := find_checkblock j1 (fnd + 1)
          if hdr_get_epoch j2 != j2.epoch then (fnd, j2)
          else
            match nf with
            | .error _ => (fnd, j2)
            | .ok nfv => findLastCheckblockLoop j2 first nfv high fuel
    else (first, j)
  | _, _, 0 => (first, j)

/-- journal.rs find_last_checkblock. -/
def find_last_checkblock (j : JState) (first : Nat) : Nat × JState :=
  findLastCheckblockLoop j first first (j.nand.num_blocks - 1) (j.nand.num_blocks + 2)

/-- journal.rs cp_free: the loop body as written in the source, which
tests is_free on the fixed page first_user + 1 on every one of the
2^log2_ppc iterations. -/
def cpFreeLoop (j : JState) (first_user : Nat) : Nat → Bool
  | 0 => true
  | count + 1 =>
    if !(j.nand.is_free (first_user + 1)) then false
    else cpFreeLoop j first_user count

/-- journal.rs cp_free. -/
def cp_free (j : JState) (first_user : Nat) : Bool :=
  cpFreeLoop j first_user (1 <<< j.log2_ppc)

/-- journal.rs find_last_group: binary search inside a block for the
last programmed checkpoint group.  low/high/mid are u32 in the source;
`high = mid - 1` can wrap at mid = 0, which we model with u32sub.  The
iteration budget of 64 covers every halving search over u32 bounds; the
budget-exhaustion value coincides with the loop-exit value. -/
def findLastGroupLoop (j : JState) (block num_groups : Nat) : Nat → Nat → Nat → Nat × JState
  | low, high, fuel + 1 =>
    if low ≤ high then
      let mid := (u32add low high) >>> 1
      let page := (mid <<< j.log2_ppc) ||| (block <<< j.nand.log2_ppb)
      if cp_free j page then
        findLastGroupLoop j block num_groups low (u32sub mid 1) fuel
      else if (mid + 1 ≥ num_groups) || cp_free j (page + (1 <<< j.log2_ppc)) then
        (page, j)
      else findLastGroupLoop j block num_groups (mid + 1) high fuel
    else (block <<< j.nand.log2_ppb, j)
  | _, _, 0 => (block <<< j.nand.log2_ppb, j)

/-- journal.rs find_last_group. -/
def find_last_group (j : JState) (block : Nat) : Nat × JState :=
  let num_groups := 1 <<< (j.nand.log2_ppb - j.log2_ppc)
  findLastGroupLoop j block num_groups 0 (num_groups - 1) 64

/-- journal.rs find_root: linear scan backward over checkpoint groups
(index i descending) for a meta-page with valid magic and epoch; on
success root is set to the page before that meta-page. -/
def findRootLoop (j : JState) (block : Nat) (i : Nat) : Except DharaError Unit × JState :=
  let page := (block <<< j.nand.log2_ppb) + ((i + 1) <<< j.log2_ppc) - 1
  let (res, j1) : Bool × JState :=
    match j.nand.readBuf j.log2_ppc page with
    | .ok buf => (true, { j with page_buf := buf })
    | .error _ => (false, j)
  if res && hdr_has_magic j1 && (hdr_get_epoch j1 == j1.epoch) then
    (.ok (), { j1 with root := page - 1 })
  else
    match i with
    | 0 => (.error .TooBad, j1)
    | i' + 1 => findRootLoop j1 block i'
  termination_by i

/-- journal.rs find_root. -/
def find_root (j : JState) (start : Nat) : Except DharaError Unit × JState :=
  let block := start >>> j.nand.log2_ppb
  let i := (start &&& ((1 <<< j.nand.log2_ppb) - 1)) >>> j.log2_ppc
  findRootLoop j block i

/-- journal.rs find_head: count of free pages trailing the checkpoint
group that starts at `first` (the inner while loop). -/
def countFreeTrailingLoop (j : JState) (first ppc : Nat) : Nat → Nat → Nat
  | 0, n => n
  | fuel + 1, n =>
    if n < ppc && j.nand.is_free (first + ppc - n - 1) then
      countFreeTrailingLoop j first ppc fuel (n + 1)
    else n

/-- journal.rs find_head: the outer loop.  Every iteration advances head
by one checkpoint group and the loop stops no later than the next block
boundary, so a budget of 2^log2_ppb + 2 iterations is never exhausted
for ppc ≤ ppb. -/
def findHeadLoop (j : JState) : Nat → JState
  | 0 => j
  | fuel + 1 =>
    let ppc := 1 <<< j.log2_ppc
    let first := alignDownBits j.head j.log2_ppc
    let n := countFreeTrailingLoop j first ppc ppc 0
    if n > 1 then { j with head := first + ppc - n }
    else
      let j1 := { j with head := first + ppc }
      let j2 := if j1.head ≥ chipSize j1 then roll_stats { j1 with head := 0 } else j1
      if is_aligned j2.head j2.nand.log2_ppb then
        if align_eq j2.head j2.tail j2.nand.log2_ppb then
          { j2 with tail := (j2.next_block (j2.tail >>> j2.nand.log2_ppb)) <<< j2.nand.log2_ppb }
        else j2
      else findHeadLoop j2 fuel

/-- journal.rs find_head. -/
def find_head (j : JState) (start : Nat) : JState :=
  let j1 := rollIfZero { j with head := j.next_upage start }
  findHeadLoop j1 ((1 <<< j1.nand.log2_ppb) + 2)

/-- journal.rs journal_resume. -/
def journal_resume (j : JState) : Except DharaError Unit × JState :=
  match find_checkblock j 0 with
  | (.error e, j1) => (.error e, reset_journal j1)
  | (.ok first, j1) =>
    let j2 := { j1 with epoch := hdr_get_epoch j1 }
    let (last, j3) := find_last_checkblock j2 first
    let (last_group, j4) := find_last_group j3 last
    match find_root j4 last_group with
    | (.error e, j5) => (.error e, reset_journal j5)
    | (.ok _, j5) =>
      let j6 := { j5 with
        tail := hdr_get_tail j5
        bb_current := hdr_get_bb_current j5
        bb_last := hdr_get_bb_last j5 }
      let j7 := hdr_clear_user j6
      let j8 := find_head j7 last_group
      let j9 := { j8 with
        dirty := false
        bad_meta := false
        recovery := false
        enum_done := false
        tail_sync := j8.tail }
      (.ok (), clear_recovery j9)

/-! ## Map layer (lib.rs DharaMap) -/

structure MapState where
  journal : JState
  gc_ratio : Nat
  count : Nat

/-- lib.rs DharaMap::new (gc_ratio is clamped to at least 1). -/
def map_new (nand : Nand) (gc_ratio : Nat) : MapState :=
  let ratio := if gc_ratio == 0 then 1 else gc_ratio
  { journal := journal_new nand, gc_ratio := ratio, count := 0 }

/-- lib.rs resume. -/
def map_resume (m : MapState) : Except DharaError Unit × MapState :=
  match journal_resume m.journal with
  | (.error e, j) => (.error e, { m with journal := j, count := 0 })
  | (.ok _, j) => (.ok (), { m with journal := j, count := get_cookie j })

/-- lib.rs clear. -/
def map_clear (m : MapState) : MapState :=
  if m.count != 0 then { m with count := 0, journal := journal_clear m.journal }
  else m

/-- lib.rs get_capacity (saturating_sub becomes Nat subtraction). -/
def get_capacity (m : MapState) : Nat :=
  let cap := journal_capacity m.journal
  let reserve := cap / (m.gc_ratio + 1)
  let safety_margin := MAX_RETRIES <<< m.journal.nand.log2_ppb
  cap - (reserve + safety_margin)

/-- lib.rs get_size. -/
def get_size (m : MapState) : Nat := m.count

/-- lib.rs d_bit. -/
def d_bit (depth : Nat) : Nat := 1 <<< (RADIX_DEPTH - depth - 1)

/-- lib.rs trace_not_found: fill the remaining alt-slots from `depth`
upward with SECTOR_NONE (the loop is recursion on RADIX_DEPTH - depth). -/
def traceNotFoundFill (nm : Meta) (depth : Nat) : Nat → Meta
  | 0 => nm
  | fuel + 1 => traceNotFoundFill (meta_set_alt nm depth SECTOR_NONE) (depth + 1) fuel

/-- lib.rs trace_not_found (the NotFound error is returned by the
callers below; this returns the mutated buffer). -/
def trace_not_found (nm : Meta) (depth : Nat) : Meta :=
  traceNotFoundFill nm depth (RADIX_DEPTH - depth)

/-- lib.rs trace_path: the depth loop.  `p` is the page of the node
whose metadata is in `meta`; `new_meta` is the caller's buffer being
filled; recursion is on the remaining depth budget RADIX_DEPTH - depth. -/
def tracePathLoop (j : JState) (target : Nat) :
    Nat → Meta → Meta → Nat → Nat → Except DharaError Nat × Meta
  | p, _, new_meta, _, 0 => (.ok p, new_meta)
  | p, meta, new_meta, depth, fuel + 1 =>
    let id := meta_get_id meta
    if id == SECTOR_NONE then (.error .NotFound, trace_not_found new_meta depth)
    else if (target ^^^ id) &&& d_bit depth != 0 then
      let nm1 := meta_set_alt new_meta depth p
      let p1 := meta_get_alt meta depth
      if p1 == PAGE_NONE then (.error .NotFound, trace_not_found nm1 (depth + 1))
      else
        match journal_read_meta j p1 with
        | .error e => (.error e, nm1)
        | .ok meta1 => tracePathLoop j target p1 meta1 nm1 (depth + 1) fuel
    else
      let nm1 := meta_set_alt new_meta depth (meta_get_alt meta depth)
      tracePathLoop j target p meta nm1 (depth + 1) fuel

/-- lib.rs trace_path.  Returns the result together with the caller's
new_meta buffer; the journal state is not mutated (reads only). -/
def trace_path (j : JState) (target : Nat) (new_meta : Meta) :
    Except DharaError Nat × Meta :=
  let nm := meta_set_id new_meta target
  if j.root == PAGE_NONE then (.error .NotFound, trace_not_found nm 0)
  else
    match journal_read_meta j j.root with
    | .error e => (.error e, nm)
    | .ok meta => tracePathLoop j target j.root meta nm 0 RADIX_DEPTH

/-- The all-zero scratch metadata buffer `[0u8; DHARA_META_SIZE]` that
lib.rs allocates before tracing. -/
def zeroMeta : Meta := ⟨0, List.replicate RADIX_DEPTH 0⟩

/-- lib.rs find. -/
def map_find (m : MapState) (target : Nat) : Except DharaError Nat :=
  (trace_path m.journal target zeroMeta).1

/-- lib.rs read: result together with the caller's data buffer. -/
def map_read (m : MapState) (sector : Nat) (data : List Nat) :
    Except DharaError Unit × List Nat :=
  match map_find m sector with
  | .error .NotFound => (.ok (), List.replicate data.length 255)
  | .error e => (.error e, data)
  | .ok page =>
    match m.journal.nand.readData page (1 <<< m.journal.nand.log2_page_size) with
    | .error e => (.error e, data)
    | .ok d => (.ok (), d)

/-- lib.rs raw_gc. -/
def raw_gc (m : MapState) (src : Nat) : Except DharaError Unit × MapState :=
  match journal_read_meta m.journal src with
  | .error e => (.error e, m)
  | .ok meta =>
    if meta_get_id meta == SECTOR_NONE then (.ok (), m)
    else
      match trace_path m.journal (meta_get_id meta) meta with
      | (.error .NotFound, _) => (.ok (), m)
      | (.error e, _) => (.error e, m)
      | (.ok current_page, meta2) =>
        if current_page != src then (.ok (), m)
        else
          let j1 := set_cookie m.journal m.count
          match journal_copy j1 src (some meta2) with
          | (.error e, j2) => (.error e, { m with journal := j2 })
          | (.ok _, j2) => (.ok (), { m with journal := j2 })

/-- lib.rs pad_queue. -/
def pad_queue (m : MapState) : Except DharaError Unit × MapState :=
  let p := m.journal.root
  let j0 := set_cookie m.journal m.count
  if p == PAGE_NONE then
    let (r, j1) := journal_enqueue j0 none none
    (r, { m with journal := j1 })
  else
    match journal_read_meta j0 p with
    | .error e => (.error e, { m with journal := j0 })
    | .ok root_meta =>
      let (r, j1) := journal_copy j0 p (some root_meta)
      (r, { m with journal := j1 })

/-- lib.rs try_recover: the recovery-driving loop, with an iteration
budget (the source's while loop runs until the journal leaves
recovery). -/
def tryRecoverLoop (m : MapState) : Nat → Nat → Except DharaError Unit × MapState
  | _, 0 => (.error .TooBad, m)
  | restart_count, fuel + 1 =>
    if journal_in_recovery m.journal then
      let (p, j1) := journal_next_recoverable m.journal
      let m1 := { m with journal := j1 }
      let (ret, m2) := if p == PAGE_NONE then pad_queue m1 else raw_gc m1 p
      match ret with
      | .ok _ => tryRecoverLoop m2 restart_count fuel
      | .error .Recover =>
        if restart_count ≥ MAX_RETRIES then (.error .TooBad, m2)
        else tryRecoverLoop m2 (restart_count + 1) fuel
      | .error e => (.error e, m2)
    else (.ok (), m)

/-- lib.rs try_recover. -/
def try_recover (m : MapState) (cause : DharaError) (fuel : Nat) :
    Except DharaError Unit × MapState :=
  if cause != .Recover then (.error cause, m)
  else tryRecoverLoop m 0 fuel

/-- lib.rs gc: the loop. -/
def gcLoop (m : MapState) : Nat → Except DharaError Unit × MapState
  | 0 => (.error .TooBad, m)
  | fuel + 1 =>
    let (tl, j1) := journal_peek m.journal
    let m1 := { m with journal := j1 }
    if tl == PAGE_NONE then (.ok (), m1)
    else
      match raw_gc m1 tl with
      | (.ok _, m2) => (.ok (), { m2 with journal := journal_dequeue m2.journal })
      | (.error e, m2) =>
        match try_recover m2 e fuel with
        | (.error e2, m3) => (.error e2, m3)
        | (.ok _, m3) => gcLoop m3 fuel

/-- lib.rs gc. -/
def map_gc (m : MapState) (fuel : Nat) : Except DharaError Unit × MapState :=
  if m.count == 0 then (.ok (), m)
  else gcLoop m fuel

/-- lib.rs auto_gc: run gc gc_ratio times when the journal is at
capacity. -/
def autoGcTimes (m : MapState) : Nat → Nat → Except DharaError Unit × MapState
  | 0, _ => (.ok (), m)
  | k + 1, fuel =>
    match map_gc m fuel with
    | (.error e, m1) => (.error e, m1)
    | (.ok _, m1) => autoGcTimes m1 k fuel

/-- lib.rs auto_gc. -/
def auto_gc (m : MapState) (fuel : Nat) : Except DharaError Unit × MapState :=
  if journal_size m.journal < get_capacity m then (.ok (), m)
  else autoGcTimes m m.gc_ratio fuel

/-- lib.rs prepare_write.  Returns the traced metadata buffer on
success. -/
def prepare_write (m : MapState) (dst : Nat) (meta : Meta) (fuel : Nat) :
    Except DharaError Meta × MapState :=
  match auto_gc m fuel with
  | (.error e, m1) => (.error e, m1)
  | (.ok _, m1) =>
    let (res, meta2) := trace_path m1.journal dst meta
    match res with
    | .ok _ => (.ok meta2, { m1 with journal := set_cookie m1.journal m1.count })
    | .error .NotFound =>
      if m1.count ≥ get_capacity m1 then (.error .MapFull, m1)
      else
        let m2 := { m1 with count := m1.count + 1 }
        (.ok meta2, { m2 with journal := set_cookie m2.journal m2.count })
    | .error e => (.error e, m1)

/-- lib.rs write: the retry loop. -/
def mapWriteLoop (m : MapState) (dst : Nat) (data : List Nat) :
    Nat → Except DharaError Unit × MapState
  | 0 => (.error .TooBad, m)
  | fuel + 1 =>
    let old_count := m.count
    match prepare_write m dst zeroMeta fuel with
    | (.error e, m1) => (.error e, m1)
    | (.ok meta, m1) =>
      match journal_enqueue m1.journal (some data) (some meta) with
      | (.ok _, j1) => (.ok (), { m1 with journal := j1 })
      | (.error e, j1) =>
        let m2 := { m1 with journal := j1, count := old_count }
        match try_recover m2 e fuel with
        | (.error e2, m3) => (.error e2, m3)
        | (.ok _, m3) => mapWriteLoop m3 dst data fuel

/-- lib.rs write. -/
def map_write (m : MapState) (dst : Nat) (data : List Nat) (fuel : Nat) :
    Except DharaError Unit × MapState :=
  mapWriteLoop m dst data fuel

/-- lib.rs try_delete: the cousin-selection loop as written in the
source: levels RADIX_DEPTH-1 down to 1 are examined; when the level
counter reaches 0 the map is cleared (level 0 itself is never
examined).  Returns the chosen (level, alt_page), or none for the
clear case. -/
def deleteCousinLevel (meta : Meta) : Nat → Option (Nat × Nat)
  | 0 => none
  | level + 1 =>
    let alt_page := meta_get_alt meta (level + 1)
    if alt_page != PAGE_NONE then some (level + 1, alt_page)
    else deleteCousinLevel meta level

/-- lib.rs try_delete: the alt-copying loop
`for i in (level+1)..RADIX_DEPTH { meta[i] := alt_meta[i] }`. -/
def copyAltsFromLoop (alt_meta : Meta) : Nat → Nat → Meta → Meta
  | 0, _, meta => meta
  | fuel + 1, i, meta =>
    copyAltsFromLoop alt_meta fuel (i + 1) (meta_set_alt meta i (meta_get_alt alt_meta i))

/-- lib.rs try_delete. -/
def try_delete (m : MapState) (sector : Nat) : Except DharaError Unit × MapState :=
  match trace_path m.journal sector zeroMeta with
  | (.error .NotFound, _) => (.ok (), m)
  | (.error e, _) => (.error e, m)
  | (.ok _, meta) =>
    match deleteCousinLevel meta (RADIX_DEPTH - 1) with
    | none =>
      (.ok (), { m with count := 0, journal := journal_clear m.journal })
    | some (level, alt_page) =>
      match journal_read_meta m.journal alt_page with
      | .error e => (.error e, m)
      | .ok alt_meta =>
        let meta1 := meta_set_id meta (meta_get_id alt_meta)
        let meta2 := meta_set_alt meta1 level PAGE_NONE
        let meta3 := copyAltsFromLoop alt_meta (RADIX_DEPTH - (level + 1)) (level + 1) meta2
        let meta4 := meta_set_alt meta3 level PAGE_NONE
        let j1 := set_cookie m.journal (m.count - 1)
        match journal_copy j1 alt_page (some meta4) with
        | (.error e, j2) => (.error e, { m with journal := j2 })
        | (.ok _, j2) => (.ok (), { m with journal := j2, count := m.count - 1 })

/-- lib.rs trim: the retry loop. -/
def mapTrimLoop (m : MapState) (sector : Nat) : Nat → Except DharaError Unit × MapState
  | 0 => (.error .TooBad, m)
  | fuel + 1 =>
    match auto_gc m fuel with
    | (.error e, m1) => (.error e, m1)
    | (.ok _, m1) =>
      match try_delete m1 sector with
      | (.ok _, m2) => (.ok (), m2)
      | (.error e, m2) =>
        match try_recover m2 e fuel with
        | (.error e2, m3) => (.error e2, m3)
        | (.ok _, m3) => mapTrimLoop m3 sector fuel

/-- lib.rs trim. -/
def map_trim (m : MapState) (sector : Nat) (fuel : Nat) :
    Except DharaError Unit × MapState :=
  mapTrimLoop m sector fuel

/-- lib.rs sync: the while-dirty loop, with an iteration budget. -/
def mapSyncLoop (m : MapState) : Nat → Except DharaError Unit × MapState
  | 0 => (.error .TooBad, m)
  | fuel + 1 =>
    if journal_is_clean m.journal then (.ok (), m)
    else
      let (p, j1) := journal_peek m.journal
      let m1 := { m with journal := j1 }
      let (ret, m2) :=
        if p == PAGE_NONE then pad_queue m1
        else
          match raw_gc m1 p with
          | (.ok _, mz) => (.ok (), { mz with journal := journal_dequeue mz.journal })
          | (.error e, mz) => (.error e, mz)
      match ret with
      | .ok _ => mapSyncLoop m2 fuel
      | .error e =>
        match try_recover m2 e fuel with
        | (.error e2, m3) => (.error e2, m3)
        | (.ok _, m3) => mapSyncLoop m3 fuel

/-- lib.rs sync. -/
def map_sync (m : MapState) (fuel : Nat) : Except DharaError Unit × MapState :=
  mapSyncLoop m fuel

/-! ## Concrete test fixtures

The SimpleNand of journal.rs's unit tests: a fault-free 64 KiB chip,
512-byte pages, 8 pages per block, 16 blocks. -/

def simpleNand : Nand :=
  { log2_page_size := 9, log2_ppb := 3, num_blocks := 16,
    bad := fun _ => false, freeFn := fun _ => true, page := fun _ => .free,
    progErr := fun _ => none, eraseErr := fun _ => none,
    copyErr := fun _ _ => none, readErr := fun _ => none }

def testJournal : JState := journal_new simpleNand

-- Sanity checks mirroring journal.rs page_geometry tests.
example : testJournal.log2_ppc = 2 := by decide
example : testJournal.next_block 0 = 1 := by decide
example : testJournal.next_block 15 = 0 := by decide
example : testJournal.next_upage 0 = 1 := by decide
example : testJournal.next_upage 14 = 16 := by decide

/-! ## C10: journal_capacity -/

/-- C10: in every journal state, journal_capacity equals
((num_blocks - b - 1) << (log2_ppb - log2_ppc)) * (2^log2_ppc - 1)
where b is the minimum of bb_current and bb_last. -/
theorem journal_capacity_eq_min_formula (j : JState) :
    journal_capacity j =
      ((j.nand.num_blocks - min j.bb_current j.bb_last - 1)
          <<< (j.nand.log2_ppb - j.log2_ppc)) * (2 ^ j.log2_ppc - 1) := by
  unfold journal_capacity
  have hmin : (if j.bb_last < j.bb_current then j.bb_last else j.bb_current)
      = min j.bb_current j.bb_last := by
    rcases le_or_lt j.bb_current j.bb_last with h | h
    · rw [if_neg (by omega), min_eq_left h]
    · rw [if_pos h, min_eq_right (by omega)]
  simp only [hmin]
  rw [Nat.shiftLeft_eq
    ((j.nand.num_blocks - min j.bb_current j.bb_last - 1)
        <<< (j.nand.log2_ppb - j.log2_ppc)) j.log2_ppc]
  rw [Nat.mul_sub]
  simp

/-! ## C3: cp_free -/

/-- A fault-free NAND where page 3 (the meta-page of the first
checkpoint group at geometry ppc = 2) is programmed and every other
page is free. -/
def c3Nand : Nand := { simpleNand with freeFn := fun p => !(p == 3) }

def c3Journal : JState := journal_new c3Nand

/-- C3 (refuting theorem): cp_free at first_user = 0 answers true even
though the checkpoint group 0..3 contains a non-free page (the
meta-page 3): the loop queries is_free only at the fixed page
first_user + 1, not at every page of the group. -/
theorem cp_free_ignores_group_pages :
    cp_free c3Journal 0 = true ∧
    c3Journal.log2_ppc = 2 ∧
    ¬ (∀ i, i < 1 <<< c3Journal.log2_ppc → c3Journal.nand.is_free (0 + i) = true) := by
  decide

/-! ## C9: find / read of an unmapped sector -/

theorem journal_read_meta_fault_free (j : JState) (page : Nat)
    (hff : ∀ p, j.nand.readErr p = none) :
    ∃ mt, journal_read_meta j page = .ok mt := by
  unfold journal_read_meta Nand.readMetaSlot
  dsimp only
  split
  · exact ⟨_, rfl⟩
  · split
    · rw [hff]
      exact ⟨_, rfl⟩
    · rw [hff]
      exact ⟨_, rfl⟩

theorem tracePathLoop_fault_free (j : JState) (target : Nat)
    (hff : ∀ p, j.nand.readErr p = none) :
    ∀ fuel p meta nm depth,
      (∃ pg r, tracePathLoop j target p meta nm depth fuel = (.ok pg, r)) ∨
      (∃ r, tracePathLoop j target p meta nm depth fuel = (.error .NotFound, r)) := by
  intro fuel
  induction fuel with
  | zero => intro p meta nm depth; exact .inl ⟨p, nm, rfl⟩
  | succ f ih =>
    intro p meta nm depth
    simp only [tracePathLoop]
    split
    · exact .inr ⟨_, rfl⟩
    · split
      · split
        · exact .inr ⟨_, rfl⟩
        · obtain ⟨mt, hmt⟩ := journal_read_meta_fault_free j (meta_get_alt meta depth) hff
          rw [hmt]
          exact ih _ _ _ _
      · exact ih _ _ _ _

/-- C9: a sector-level miss is not an error.  In a fault-free state
(no injected NAND read errors), find of a sector with no current
mapping returns NotFound (never any other error), and read of a sector
whose find is NotFound succeeds while filling the whole caller buffer
with 0xFF bytes. -/
theorem find_read_unmapped (m : MapState) (s : Nat) (buf : List Nat)
    (hff : ∀ p, m.journal.nand.readErr p = none) :
    (¬ (∃ pg, map_find m s = .ok pg) → map_find m s = .error .NotFound) ∧
    (map_find m s = .error .NotFound →
      map_read m s buf = (.ok (), List.replicate buf.length 255)) := by
  constructor
  · intro hnot
    unfold map_find trace_path at hnot ⊢
    by_cases hroot : (m.journal.root == PAGE_NONE) = true
    · rw [if_pos hroot]
    · rw [if_neg hroot] at hnot ⊢
      obtain ⟨mt, hmt⟩ := journal_read_meta_fault_free m.journal m.journal.root hff
      rw [hmt] at hnot ⊢
      dsimp only at hnot ⊢
      rcases tracePathLoop_fault_free m.journal s hff RADIX_DEPTH m.journal.root mt
        (meta_set_id zeroMeta s) 0 with ⟨pg, r, h⟩ | ⟨r, h⟩
      · exact absurd ⟨pg, by rw [h]⟩ hnot
      · rw [h]
  · intro hnf
    unfold map_read
    rw [hnf]

/-- Witness for C9: on a freshly initialized map (empty journal) find
of sector 0 is NotFound and read fills a 4-byte buffer with 0xFF. -/
theorem find_read_unmapped_witness :
    (¬ (∃ pg, map_find (map_new simpleNand 4) 0 = .ok pg) →
        map_find (map_new simpleNand 4) 0 = .error .NotFound) ∧
    (map_find (map_new simpleNand 4) 0 = .error .NotFound →
      map_read (map_new simpleNand 4) 0 [7, 7, 7, 7] =
        (.ok (), List.replicate 4 255)) :=
  find_read_unmapped (map_new simpleNand 4) 0 [7, 7, 7, 7] (fun _ => rfl)

/-! ## C5: journal_peek -/

theorem next_block_lt (j : JState) (b : Nat) (hnb : 0 < j.nand.num_blocks) :
    j.next_block b < j.nand.num_blocks := by
  unfold JState.next_block
  dsimp only
  split
  · exact hnb
  · omega

theorem peekLoop_result_shape (j : JState) (hnb : 0 < j.nand.num_blocks) :
    ∀ fuel block, block < j.nand.num_blocks →
      (peekLoop j block fuel).1 = j.tail ∨
      ∃ b, b < j.nand.num_blocks ∧ (peekLoop j block fuel).1 = b <<< j.nand.log2_ppb := by
  intro fuel
  induction fuel with
  | zero => intro block _; exact .inl rfl
  | succ f ih =>
    intro block hb
    simp only [peekLoop]
    split
    · right
      refine ⟨block, hb, ?_⟩
      split <;> rfl
    · exact ih (j.next_block block) (next_block_lt j block hnb)

theorem peekLoop_skips_to_good (j : JState) :
    ∀ fuel k block, k < fuel →
      (∀ i, i < k → ((fun b => j.next_block b)^[i] block ≠ j.head >>> j.nand.log2_ppb ∧
        j.nand.bad ((fun b => j.next_block b)^[i] block) = true)) →
      ((fun b => j.next_block b)^[k] block = j.head >>> j.nand.log2_ppb ∨
        j.nand.bad ((fun b => j.next_block b)^[k] block) = false) →
      (peekLoop j block fuel).1 =
          ((fun b => j.next_block b)^[k] block) <<< j.nand.log2_ppb ∧
      (peekLoop j block fuel).2.tail = (peekLoop j block fuel).1 := by
  intro fuel
  induction fuel with
  | zero => intro k block hk; omega
  | succ f ih =>
    intro k block hk hbad hgood
    simp only [peekLoop]
    match k with
    | 0 =>
      simp only [Function.iterate_zero, id_eq] at hgood ⊢
      have hcond : (block == j.head >>> j.nand.log2_ppb || !(j.nand.is_bad block)) = true := by
        rcases hgood with h | h
        · simp [h]
        · simp [Nand.is_bad, h]
      rw [if_pos hcond]
      split <;> exact ⟨rfl, rfl⟩
    | k' + 1 =>
      have h0 := hbad 0 (by omega)
      simp only [Function.iterate_zero, id_eq] at h0
      have hcond : (block == j.head >>> j.nand.log2_ppb || !(j.nand.is_bad block)) = false := by
        simp only [Bool.or_eq_false_iff, Bool.not_eq_false', beq_eq_false_iff_ne, ne_eq]
        exact ⟨h0.1, h0.2⟩
      rw [if_neg (by simp [hcond])]
      have hshift : ∀ i, (fun b => j.next_block b)^[i] (j.next_block block) =
          (fun b => j.next_block b)^[i + 1] block := by
        intro i
        rw [Function.iterate_succ_apply]
      have := ih k' (j.next_block block) (by omega)
        (fun i hi => by rw [hshift i]; exact hbad (i + 1) (by omega))
        (by rw [hshift k']; exact hgood)
      rwa [hshift k'] at this

/-- C5: journal_peek returns PAGE_NONE exactly when the queue is empty
(head = tail); and when the queue is non-empty, the tail is
block-aligned, and the first k < MAX_RETRIES blocks from the tail are
bad (and not the head's block) while the k-th successor is good or the
head's block, peek skips those bad blocks: it returns that block's
first page and advances tail to it. -/
theorem journal_peek_none_iff_empty (j : JState)
    (htail : j.tail < chipSize j) (hchip : chipSize j < PAGE_NONE) :
    ((journal_peek j).1 = PAGE_NONE ↔ j.head = j.tail) ∧
    (∀ k, k < MAX_RETRIES → j.head ≠ j.tail →
      is_aligned j.tail j.nand.log2_ppb = true →
      (∀ i, i < k →
        ((fun b => j.next_block b)^[i] (j.tail >>> j.nand.log2_ppb) ≠
            j.head >>> j.nand.log2_ppb ∧
          j.nand.bad ((fun b => j.next_block b)^[i] (j.tail >>> j.nand.log2_ppb)) = true)) →
      ((fun b => j.next_block b)^[k] (j.tail >>> j.nand.log2_ppb) =
            j.head >>> j.nand.log2_ppb ∨
        j.nand.bad ((fun b => j.next_block b)^[k] (j.tail >>> j.nand.log2_ppb)) = false) →
      (journal_peek j).1 =
          ((fun b => j.next_block b)^[k] (j.tail >>> j.nand.log2_ppb))
            <<< j.nand.log2_ppb ∧
      (journal_peek j).2.tail = (journal_peek j).1) := by
  have hnb : 0 < j.nand.num_blocks := by
    rcases Nat.eq_zero_or_pos j.nand.num_blocks with h0 | h
    · exfalso
      unfold chipSize at htail
      rw [h0, Nat.zero_shiftLeft] at htail
      omega
    · exact h
  constructor
  · constructor
    · intro hres
      by_contra hne
      unfold journal_peek at hres
      rw [if_neg (by simpa using hne)] at hres
      by_cases hal : is_aligned j.tail j.nand.log2_ppb = true
      · rw [if_pos hal] at hres
        have hblk : j.tail >>> j.nand.log2_ppb < j.nand.num_blocks := by
          rw [Nat.shiftRight_eq_div_pow]
          apply Nat.div_lt_of_lt_mul
          rw [mul_comm]
          unfold chipSize at htail
          rwa [Nat.shiftLeft_eq] at htail
        rcases peekLoop_result_shape j hnb MAX_RETRIES (j.tail >>> j.nand.log2_ppb) hblk with
          h | ⟨b, hb, h⟩
        · rw [hres] at h
          omega
        · rw [hres] at h
          have : b <<< j.nand.log2_ppb < chipSize j := by
            unfold chipSize
            rw [Nat.shiftLeft_eq, Nat.shiftLeft_eq]
            exact Nat.mul_lt_mul_of_lt_of_le hb (le_refl _)
              (Nat.pos_pow_of_pos _ (by norm_num))
          omega
      · rw [if_neg hal] at hres
        dsimp only at hres
        omega
    · intro h
      unfold journal_peek
      rw [if_pos (by simpa using h)]
  · intro k hk hne hal hbad hgood
    unfold journal_peek
    rw [if_neg (by simpa using (fun h => hne h)), if_pos hal]
    exact peekLoop_skips_to_good j MAX_RETRIES k (j.tail >>> j.nand.log2_ppb) hk hbad hgood

/-- A non-empty test journal (head advanced to page 4, tail at 0). -/
def c5Journal : JState := { testJournal with head := 4 }

/-- Witness for C5: on the non-empty c5Journal, peek is not PAGE_NONE
(the iff instantiates) and with zero bad blocks to skip it returns the
tail block's first page and leaves tail there. -/
theorem journal_peek_none_iff_empty_witness :
    (c5Journal.tail < chipSize c5Journal ∧ chipSize c5Journal < PAGE_NONE ∧
      c5Journal.head ≠ c5Journal.tail ∧
      is_aligned c5Journal.tail c5Journal.nand.log2_ppb = true) ∧
    ((journal_peek c5Journal).1 = PAGE_NONE ↔ c5Journal.head = c5Journal.tail) ∧
    ((journal_peek c5Journal).1 =
        ((fun b => c5Journal.next_block b)^[0]
            (c5Journal.tail >>> c5Journal.nand.log2_ppb)) <<< c5Journal.nand.log2_ppb ∧
      (journal_peek c5Journal).2.tail = (journal_peek c5Journal).1) :=
  ⟨⟨by decide, by decide, by decide, by decide⟩,
    (journal_peek_none_iff_empty c5Journal (by decide) (by decide)).1,
    (journal_peek_none_iff_empty c5Journal (by decide) (by decide)).2 0 (by decide)
      (by decide) (by decide) (fun i hi => absurd hi (by omega)) (Or.inr (by decide))⟩

/-! ## C7: journal_next_recoverable -/

/-- The journal state after k successive calls to
journal_next_recoverable. -/
def nrIter (j : JState) (k : Nat) : JState :=
  (fun s => (journal_next_recoverable s).2)^[k] j

/-- The page returned by the (k+1)-st call to journal_next_recoverable
(k previous calls having been made). -/
def nrResultAt (j : JState) (k : Nat) : Nat :=
  (journal_next_recoverable (nrIter j k)).1

theorem nrIter_le_char (j : JState) (m : Nat)
    (hrec : j.recovery = true) (hdone : j.enum_done = false)
    (_hm : (fun p => j.next_upage p)^[m] j.recover_next = j.recover_root)
    (hlt : ∀ i, i < m →
      (fun p => j.next_upage p)^[i] j.recover_next ≠ j.recover_root) :
    ∀ k, k ≤ m → nrIter j k =
      { j with recover_next := (fun p => j.next_upage p)^[k] j.recover_next } := by
  intro k
  induction k with
  | zero => intro _; rfl
  | succ k ih =>
    intro hk
    have hik := ih (by omega)
    unfold nrIter at hik ⊢
    rw [Function.iterate_succ_apply', hik]
    unfold journal_next_recoverable journal_in_recovery
    dsimp only
    rw [hrec]
    have hne : ((fun p => j.next_upage p)^[k] j.recover_next == j.recover_root) = false := by
      simp only [beq_eq_false_iff_ne, ne_eq]
      exact hlt k (by omega)
    simp only [hdone, hne, Bool.not_true, Bool.false_eq_true, if_false, if_true]
    rw [Function.iterate_succ_apply']
    rfl

theorem nrIter_past_char (j : JState) (m : Nat)
    (hrec : j.recovery = true) (hdone : j.enum_done = false)
    (hm : (fun p => j.next_upage p)^[m] j.recover_next = j.recover_root)
    (hlt : ∀ i, i < m →
      (fun p => j.next_upage p)^[i] j.recover_next ≠ j.recover_root) :
    ∀ e, nrIter j (m + 1 + e) =
      { j with recover_next := j.recover_root, enum_done := true } := by
  have hbase : nrIter j (m + 1) =
      { j with recover_next := j.recover_root, enum_done := true } := by
    unfold nrIter
    rw [Function.iterate_succ_apply']
    have := nrIter_le_char j m hrec hdone hm hlt m (le_refl m)
    unfold nrIter at this
    rw [this]
    unfold journal_next_recoverable journal_in_recovery
    dsimp only
    rw [hrec, hm]
    simp [hdone]
  intro e
  induction e with
  | zero => exact hbase
  | succ e ih =>
    unfold nrIter at ih ⊢
    have : m + 1 + (e + 1) = (m + 1 + e) + 1 := by omega
    rw [this, Function.iterate_succ_apply', ih]
    unfold journal_next_recoverable journal_in_recovery
    dsimp only
    rw [hrec]
    simp

/-- C7: while in recovery (ENUM_DONE clear), successive calls to
journal_next_recoverable return exactly the next_upage chain from
recover_next up to and including recover_root (ascending user pages
when the chain stays below recover_root, which is a user page); every
later call returns PAGE_NONE (ENUM_DONE latched when recover_next
reaches recover_root); and any call made while not in recovery returns
PAGE_NONE. -/
theorem journal_next_recoverable_enumerates (j : JState) (m : Nat)
    (hrec : j.recovery = true) (hdone : j.enum_done = false)
    (hchip : j.recover_root < chipSize j)
    (hrup : (j.recover_root + 1) % 2 ^ j.log2_ppc ≠ 0)
    (hm : (fun p => j.next_upage p)^[m] j.recover_next = j.recover_root)
    (hlt : ∀ i, i < m →
      (fun p => j.next_upage p)^[i] j.recover_next < j.recover_root) :
    (∀ k, k ≤ m → nrResultAt j k = (fun p => j.next_upage p)^[k] j.recover_next) ∧
    (∀ i, i < m → (fun p => j.next_upage p)^[i] j.recover_next <
      (fun p => j.next_upage p)^[i + 1] j.recover_next) ∧
    (∀ k, m < k → nrResultAt j k = PAGE_NONE) ∧
    (∀ j2 : JState, j2.recovery = false →
      (journal_next_recoverable j2).1 = PAGE_NONE) := by
  have hne : ∀ i, i < m →
      (fun p => j.next_upage p)^[i] j.recover_next ≠ j.recover_root := by
    intro i hi
    exact Nat.ne_of_lt (hlt i hi)
  refine ⟨?_, ?_, ?_, ?_⟩
  · intro k hk
    unfold nrResultAt
    rw [nrIter_le_char j m hrec hdone hm hne k hk]
    unfold journal_next_recoverable journal_in_recovery
    dsimp only
    rw [hrec]
    simp only [hdone, Bool.not_true, Bool.false_eq_true, if_false]
    split <;> rfl
  · intro i hi
    rw [Function.iterate_succ_apply']
    set p := (fun p => j.next_upage p)^[i] j.recover_next with hp
    have hpr : p < j.recover_root := hlt i hi
    show p < j.next_upage p
    unfold JState.next_upage
    dsimp only
    by_cases hal : is_aligned (p + 1 + 1) j.log2_ppc = true
    · rw [if_pos hal]
      have h2 : p + 2 ≤ j.recover_root := by
        rcases Nat.lt_or_ge (p + 1) j.recover_root with h | h
        · omega
        · exfalso
          have : p + 1 = j.recover_root := by omega
          rw [is_aligned_iff_mod] at hal
          rw [← this] at hrup
          omega
      rw [if_neg (by omega)]
      omega
    · rw [if_neg hal]
      have h1 : p + 1 ≤ j.recover_root := by omega
      rw [if_neg (by omega)]
      omega
  · intro k hk
    unfold nrResultAt
    have : k = m + 1 + (k - m - 1) := by omega
    rw [this, nrIter_past_char j m hrec hdone hm hne]
    unfold journal_next_recoverable journal_in_recovery
    dsimp only
    rw [hrec]
    simp
  · intro j2 h2
    unfold journal_next_recoverable journal_in_recovery
    rw [h2]
    rfl

/-- A journal in recovery over block 0 (recover_next = 0,
recover_root = 2, geometry ppc = 2). -/
def c7Journal : JState :=
  { testJournal with
    recovery := true
    enum_done := false
    recover_next := 0
    recover_root := 2 }

/-- Witness for C7: successive calls on c7Journal yield pages 0, 1, 2
and then PAGE_NONE. -/
theorem journal_next_recoverable_enumerates_witness :
    nrResultAt c7Journal 0 = 0 ∧ nrResultAt c7Journal 1 = 1 ∧
    nrResultAt c7Journal 2 = 2 ∧ nrResultAt c7Journal 3 = PAGE_NONE := by
  have h := journal_next_recoverable_enumerates c7Journal 2 (by decide) (by decide)
    (by decide) (by decide) (by decide)
    (by intro i hi; interval_cases i <;> decide)
  exact ⟨(h.1 0 (by omega)).trans (by decide), (h.1 1 (by omega)).trans (by decide),
    (h.1 2 (by omega)).trans (by decide), h.2.2.1 3 (by omega)⟩

/-! ## C4: state on JournalFull / MapFull -/

/-- A journal whose head sits at the start of bad block 1 while
tail_sync occupies block 2: preparing the head must skip block 1 and
would collide with tail_sync. -/
def c4Journal : JState :=
  { testJournal with
    head := 8
    tail := 16
    tail_sync := 16
    nand := { simpleNand with bad := fun b => b == 1 } }

/-- A map at its capacity (count = get_capacity = 8) whose journal is at
the auto-GC threshold (journal_size = 12 ≥ 8), with blank metadata under
the tail pages so that each GC round is a no-op collect followed by a
dequeue. -/
def c4cMap : MapState :=
  { journal := { testJournal with head := 16, tail := 1 }, gc_ratio := 4, count := 8 }

/-- C4 counterexample: both full-error paths can surface after observable
mutation.  (a) journal_enqueue returns Err(JournalFull) yet bb_current
was bumped from 0 to 1 and the DIRTY flag was set, because the failure
arose while skipping a bad block after prepare_head had already mutated
the state.  (b) map write returns Err(MapFull) yet the journal's tail
and tail_sync were advanced from 1 and 0 to 6, because the auto-GC that
runs before the capacity check had already dequeued four pages. -/
theorem full_errors_can_mutate_state :
    ((journal_enqueue c4Journal none none).1 = .error .JournalFull ∧
      c4Journal.bb_current = 0 ∧
      (journal_enqueue c4Journal none none).2.bb_current = 1 ∧
      c4Journal.dirty = false ∧
      (journal_enqueue c4Journal none none).2.dirty = true) ∧
    ((map_write c4cMap 0 [1] 8).1 = .error .MapFull ∧
      c4cMap.journal.tail = 1 ∧
      (map_write c4cMap 0 [1] 8).2.journal.tail = 6 ∧
      c4cMap.journal.tail_sync = 0 ∧
      (map_write c4cMap 0 [1] 8).2.journal.tail_sync = 6) := by
  decide

theorem enqueueLoop_refuse (j : JState) (data : Option (List Nat)) (meta : Option Meta)
    (fuel : Nat)
    (h1 : align_eq (j.next_upage j.head) j.tail_sync j.nand.log2_ppb = true)
    (h2 : align_eq (j.next_upage j.head) j.head j.nand.log2_ppb = false) :
    enqueueLoop j data meta (fuel + 1) = (.error .JournalFull, j) := by
  unfold enqueueLoop prepare_head
  dsimp only
  rw [h1, h2]
  simp only [Bool.not_false, Bool.and_true, if_true]
  rfl

theorem prepare_write_mapfull (m : MapState) (dst : Nat) (meta : Meta) (fuel : Nat)
    (hsz : journal_size m.journal < get_capacity m)
    (htr : (trace_path m.journal dst meta).1 = .error .NotFound)
    (hcap : m.count ≥ get_capacity m) :
    prepare_write m dst meta fuel = (.error .MapFull, m) := by
  unfold prepare_write auto_gc
  rw [if_pos hsz]
  dsimp only
  have hpair : trace_path m.journal dst meta =
      (.error .NotFound, (trace_path m.journal dst meta).2) := by
    rw [← htr]
  rw [hpair]
  dsimp only
  rw [if_pos hcap]

/-- C4 (amended): the two full conditions leave the state unchanged on
their non-mutating paths.  (a) When journal_enqueue's JournalFull comes
from the head-boundary check in prepare_head (the next user page would
roll onto tail_sync's block and not head's own block), the returned
state is exactly the input state.  (b) When map write returns MapFull
with the journal below the auto-GC threshold, the returned map state is
exactly the input state.  (The counterexample shows the unrestricted
claim is false: JournalFull reached through bad-block skipping mutates
DIRTY and bb_current.) -/
theorem full_errors_state_unchanged :
    (∀ (j : JState) (data : Option (List Nat)) (meta : Option Meta),
      align_eq (j.next_upage j.head) j.tail_sync j.nand.log2_ppb = true →
      align_eq (j.next_upage j.head) j.head j.nand.log2_ppb = false →
      journal_enqueue j data meta = (.error .JournalFull, j)) ∧
    (∀ (m : MapState) (dst : Nat) (data : List Nat) (fuel : Nat),
      journal_size m.journal < get_capacity m →
      (trace_path m.journal dst zeroMeta).1 = .error .NotFound →
      m.count ≥ get_capacity m →
      map_write m dst data (fuel + 1) = (.error .MapFull, m)) := by
  constructor
  · intro j data meta h1 h2
    unfold journal_enqueue
    exact enqueueLoop_refuse j data meta 7 h1 h2
  · intro m dst data fuel hsz htr hcap
    unfold map_write mapWriteLoop
    rw [prepare_write_mapfull m dst zeroMeta fuel hsz htr hcap]

/-- State for part (a) of the C4 witness: head mid-block 0, tail_sync
in block 1, so the boundary check fires with nothing mutated. -/
def c4aJournal : JState := { testJournal with head := 6, tail_sync := 8 }

/-- A fault-free 64-block chip, giving the map a positive capacity. -/
def bigNand : Nand := { simpleNand with num_blocks := 64 }

/-- State for part (b) of the C4 witness: a fresh map over bigNand
whose count already equals its capacity (125). -/
def c4bMap : MapState := { map_new bigNand 1 with count := 125 }

/-- Witness for C4 (amended): both parts applied at concrete states. -/
theorem full_errors_state_unchanged_witness :
    journal_enqueue c4aJournal none none = (.error .JournalFull, c4aJournal) ∧
    map_write c4bMap 5 [1, 2] 1 = (.error .MapFull, c4bMap) :=
  ⟨full_errors_state_unchanged.1 c4aJournal none none (by decide) (by decide),
    full_errors_state_unchanged.2 c4bMap 5 [1, 2] 0 (by decide) (by decide) (by decide)⟩

/-! ## C1: try_delete of a mapped sector -/

/-- Metadata of page 0, holding sector 0x80000000 (no cousins). -/
def c1MetaP0 : Meta := ⟨2147483648, List.replicate RADIX_DEPTH PAGE_NONE⟩

/-- Metadata of page 1, holding sector 0; its depth-0 alt-pointer is
page 0 (the subtree of sectors whose top bit disagrees), all other
alt-pointers are PAGE_NONE. -/
def c1MetaP1 : Meta := ⟨0, 0 :: List.replicate (RADIX_DEPTH - 1) PAGE_NONE⟩

/-- The meta-page image of checkpoint group 0 (slots for pages 0 and 1,
cookie = live-sector count 2). -/
def c1Buf : PageBuf := ⟨true, 0, 0, 0, 0, 2, [c1MetaP0, c1MetaP1, blankMeta]⟩

/-- A NAND holding the two live sectors: user pages 0 and 1 and the
group's programmed meta-page 3. -/
def c1Nand : Nand :=
  { simpleNand with
    page := fun p =>
      if p == 0 then .user [1]
      else if p == 1 then .user [2]
      else if p == 3 then .metaP c1Buf
      else .free
    freeFn := fun p => decide (4 ≤ p) }

/-- A map with exactly two live sectors 0 and 0x80000000 (count = 2),
root at page 1, head past the checkpointed group. -/
def c1Map : MapState :=
  { journal := { testJournal with nand := c1Nand, root := 1, head := 4 },
    gc_ratio := 4, count := 2 }

/-- C1 (refuting theorem): trimming sector 0 on c1Map resets the whole
map (count set to 0, journal cleared) even though the traced metadata
holds a non-PAGE_NONE alt-pointer at depth 0 (page 0, holding live
sector 0x80000000, which afterwards can no longer be found): the
cousin-selection loop stops at level 1 and never examines depth 0.  The
claim requires the reset only when no alt-pointer at any depth, 0
included, is non-PAGE_NONE, and otherwise a removal of exactly one
sector. -/
theorem try_delete_clears_despite_depth0_cousin :
    meta_get_alt (trace_path c1Map.journal 0 zeroMeta).2 0 = 0 ∧
    (0 : Nat) ≠ PAGE_NONE ∧
    c1Map.count = 2 ∧
    (try_delete c1Map 0).1 = .ok () ∧
    (try_delete c1Map 0).2.count = 0 ∧
    (try_delete c1Map 0).2.journal.root = PAGE_NONE ∧
    (try_delete c1Map 0).2.journal.tail = (try_delete c1Map 0).2.journal.head ∧
    map_find (try_delete c1Map 0).2 2147483648 = .error .NotFound := by
  decide

/-! ## C6: the journal pointers always reference user-page positions -/

/-- A sane journal geometry: at least one page per checkpoint group
plus the meta-page, groups no larger than an erase block, a non-empty
chip. -/
def geom_ok (j : JState) : Prop :=
  1 ≤ j.log2_ppc ∧ j.log2_ppc ≤ j.nand.log2_ppb ∧ 1 ≤ j.nand.num_blocks

/-- p is a user-page position: its low log2_ppc bits are not all ones
(it is not a meta-page position) and it lies on the chip. -/
def upage_ok (j : JState) (p : Nat) : Prop :=
  (p + 1) % 2 ^ j.log2_ppc ≠ 0 ∧ p < chipSize j

/-- The pointer invariant of the claim: head, tail and tail_sync are
user-page positions, and root (and the auxiliary recover_root, which
can be restored into root during recovery) is PAGE_NONE or a user-page
position. -/
def ptr_inv (j : JState) : Prop :=
  upage_ok j j.head ∧ upage_ok j j.tail ∧ upage_ok j j.tail_sync ∧
  (j.root = PAGE_NONE ∨ upage_ok j j.root) ∧
  (j.recover_root = PAGE_NONE ∨ upage_ok j j.recover_root)

def jstate_ok (j : JState) : Prop := geom_ok j ∧ ptr_inv j

/-- Well-formed NAND image for resume: any stored meta-page header
carries a tail that is a user-page position, and pages beyond the chip
read as erased. -/
def nand_wf (j : JState) : Prop :=
  (∀ p b, j.nand.page p = .metaP b →
    (b.hdrTail + 1) % 2 ^ j.log2_ppc ≠ 0 ∧ b.hdrTail < chipSize j) ∧
  (∀ p, chipSize j ≤ p → j.nand.page p = .free)

theorem chip_pos (j : JState) (hnb : 1 ≤ j.nand.num_blocks) : 0 < chipSize j := by
  unfold chipSize
  rw [Nat.shiftLeft_eq]
  exact Nat.mul_pos hnb (Nat.pos_pow_of_pos _ (by norm_num))

theorem chip_mod_ppc (j : JState) (hle : j.log2_ppc ≤ j.nand.log2_ppb) :
    chipSize j % 2 ^ j.log2_ppc = 0 := by
  unfold chipSize
  rw [Nat.shiftLeft_eq]
  obtain ⟨c, hc⟩ := pow_dvd_pow 2 hle
  have : j.nand.num_blocks * 2 ^ j.nand.log2_ppb =
      2 ^ j.log2_ppc * (c * j.nand.num_blocks) := by rw [hc]; ring
  rw [this, Nat.mul_mod_right]

theorem next_upage_ok (j : JState) (hppc : 1 ≤ j.log2_ppc)
    (hchip : 0 < chipSize j) (p : Nat) : upage_ok j (j.next_upage p) := by
  have h2 : 2 ≤ 2 ^ j.log2_ppc := by
    calc 2 = 2 ^ 1 := (pow_one 2).symm
    _ ≤ 2 ^ j.log2_ppc := Nat.pow_le_pow_right (by norm_num) hppc
  have h1m : 1 % 2 ^ j.log2_ppc = 1 := Nat.mod_eq_of_lt (by omega)
  unfold JState.next_upage upage_ok
  dsimp only
  by_cases hal : is_aligned (p + 1 + 1) j.log2_ppc = true
  · rw [if_pos hal]
    rw [is_aligned_iff_mod] at hal
    obtain ⟨c, hc⟩ := Nat.dvd_of_mod_eq_zero hal
    by_cases hw : p + 1 + 1 ≥ chipSize j
    · rw [if_pos hw]
      exact ⟨by rw [h1m]; omega, hchip⟩
    · rw [if_neg hw]
      refine ⟨?_, by omega⟩
      have h3 : p + 1 + 1 + 1 = 2 ^ j.log2_ppc * c + 1 := by omega
      rw [h3, Nat.mul_add_mod, h1m]
      omega
  · rw [if_neg hal]
    rw [is_aligned_iff_mod] at hal
    by_cases hw : p + 1 ≥ chipSize j
    · rw [if_pos hw]
      exact ⟨by rw [h1m]; omega, hchip⟩
    · rw [if_neg hw]
      exact ⟨hal, by omega⟩

theorem block_start_ok (j : JState) (hg : geom_ok j) (b : Nat)
    (hb : b < j.nand.num_blocks) : upage_ok j (b <<< j.nand.log2_ppb) := by
  obtain ⟨hppc, hle, hnb⟩ := hg
  have h2 : 2 ≤ 2 ^ j.log2_ppc := by
    calc 2 = 2 ^ 1 := (pow_one 2).symm
    _ ≤ 2 ^ j.log2_ppc := Nat.pow_le_pow_right (by norm_num) hppc
  constructor
  · rw [Nat.shiftLeft_eq]
    obtain ⟨c, hc⟩ := pow_dvd_pow 2 hle
    have h3 : b * 2 ^ j.nand.log2_ppb + 1 = 2 ^ j.log2_ppc * (c * b) + 1 := by
      rw [hc]; ring
    rw [h3, Nat.mul_add_mod, Nat.mod_eq_of_lt (by omega)]
    omega
  · unfold chipSize
    rw [Nat.shiftLeft_eq, Nat.shiftLeft_eq]
    exact Nat.mul_lt_mul_of_lt_of_le hb (le_refl _)
      (Nat.pos_pow_of_pos _ (by norm_num))

/-- journal_dequeue preserves the pointer invariant. -/
theorem journal_dequeue_ok (j : JState) (hj : jstate_ok j) :
    jstate_ok (journal_dequeue j) := by
  obtain ⟨hg, hh, ht, hts, hr, hrr⟩ := hj
  have hchip : 0 < chipSize j := chip_pos j hg.2.2
  have hnu : upage_ok j (j.next_upage j.tail) := next_upage_ok j hg.1 hchip j.tail
  unfold journal_dequeue
  by_cases h0 : (j.head == j.tail) = true
  · rw [if_pos h0]
    exact ⟨hg, hh, ht, hts, hr, hrr⟩
  · rw [if_neg h0]
    dsimp only
    by_cases h1 : (!({ j with tail := j.next_upage j.tail }).dirty &&
        !({ j with tail := j.next_upage j.tail }).recovery) = true
    · rw [if_pos h1]
      dsimp only
      split
      · exact ⟨hg, hh, hnu, hnu, Or.inl rfl, hrr⟩
      · exact ⟨hg, hh, hnu, hnu, hr, hrr⟩
    · rw [if_neg h1]
      dsimp only
      split
      · exact ⟨hg, hh, hnu, hts, Or.inl rfl, hrr⟩
      · exact ⟨hg, hh, hnu, hts, hr, hrr⟩

/-- peekLoop's state outcome: unchanged, or tail moved to the start of
a block below num_blocks (with root possibly cleared). -/
theorem peekLoop_state (j : JState) (hnb : 0 < j.nand.num_blocks) :
    ∀ fuel block, block < j.nand.num_blocks →
      (peekLoop j block fuel).2 = j ∨
      ∃ b, b < j.nand.num_blocks ∧
        ((peekLoop j block fuel).2 = { j with tail := b <<< j.nand.log2_ppb } ∨
         (peekLoop j block fuel).2 =
            { j with tail := b <<< j.nand.log2_ppb, root := PAGE_NONE }) := by
  intro fuel
  induction fuel with
  | zero => intro block _; exact .inl rfl
  | succ f ih =>
    intro block hb
    simp only [peekLoop]
    split
    · right
      refine ⟨block, hb, ?_⟩
      split
      · exact .inr rfl
      · exact .inl rfl
    · exact ih (j.next_block block) (next_block_lt j block hnb)

/-- journal_peek preserves the pointer invariant. -/
theorem journal_peek_ok (j : JState) (hj : jstate_ok j) :
    jstate_ok (journal_peek j).2 := by
  obtain ⟨hg, hh, ht, hts, hr, hrr⟩ := hj
  unfold journal_peek
  by_cases h0 : (j.head == j.tail) = true
  · rw [if_pos h0]
    exact ⟨hg, hh, ht, hts, hr, hrr⟩
  · rw [if_neg h0]
    by_cases hal : is_aligned j.tail j.nand.log2_ppb = true
    · rw [if_pos hal]
      have hblk : j.tail >>> j.nand.log2_ppb < j.nand.num_blocks := by
        rw [Nat.shiftRight_eq_div_pow]
        apply Nat.div_lt_of_lt_mul
        rw [mul_comm]
        have := ht.2
        unfold chipSize at this
        rwa [Nat.shiftLeft_eq] at this
      rcases peekLoop_state j hg.2.2 MAX_RETRIES (j.tail >>> j.nand.log2_ppb) hblk with
        h | ⟨b, hb, h | h⟩
      · rw [h]
        exact ⟨hg, hh, ht, hts, hr, hrr⟩
      · rw [h]
        exact ⟨hg, hh, block_start_ok j hg b hb, hts, hr, hrr⟩
      · rw [h]
        exact ⟨hg, hh, block_start_ok j hg b hb, hts, Or.inl rfl, hrr⟩
    · rw [if_neg hal]
      exact ⟨hg, hh, ht, hts, hr, hrr⟩

/-- journal_clear preserves the pointer invariant. -/
theorem journal_clear_ok (j : JState) (hj : jstate_ok j) :
    jstate_ok (journal_clear j) := by
  obtain ⟨hg, hh, ht, hts, hr, hrr⟩ := hj
  exact ⟨hg, hh, hh, hts, Or.inl rfl, hrr⟩

/-- Assembly lemma: a state whose geometry agrees with a base state j
and whose pointers are user-page positions of j satisfies the
invariant. -/
theorem jstate_ok_of_parts (S j : JState)
    (hgeq : S.log2_ppc = j.log2_ppc) (hppb : S.nand.log2_ppb = j.nand.log2_ppb)
    (hnb : S.nand.num_blocks = j.nand.num_blocks) (hg : geom_ok j)
    (hh : upage_ok j S.head) (ht : upage_ok j S.tail) (hts : upage_ok j S.tail_sync)
    (hr : S.root = PAGE_NONE ∨ upage_ok j S.root)
    (hrr : S.recover_root = PAGE_NONE ∨ upage_ok j S.recover_root) :
    jstate_ok S := by
  have hcs : chipSize S = chipSize j := by unfold chipSize; rw [hppb, hnb]
  have hup : ∀ p, upage_ok j p → upage_ok S p := by
    intro p hp
    unfold upage_ok at *
    rw [hgeq, hcs]
    exact hp
  exact ⟨⟨by rw [hgeq]; exact hg.1, by rw [hgeq, hppb]; exact hg.2.1,
      by rw [hnb]; exact hg.2.2⟩,
    hup _ hh, hup _ ht, hup _ hts, hr.imp id (hup _), hrr.imp id (hup _)⟩

theorem rollIfZero_ok (j : JState) (hj : jstate_ok j) : jstate_ok (rollIfZero j) := by
  unfold rollIfZero roll_stats
  split
  · exact ⟨hj.1, hj.2⟩
  · exact hj

theorem Nand.erase_geom (n : Nand) (b : Nat) :
    (n.erase b).2.log2_ppb = n.log2_ppb ∧ (n.erase b).2.num_blocks = n.num_blocks := by
  unfold Nand.erase
  cases n.eraseErr b <;> simp

theorem Nand.prog_geom (n : Nand) (p : Nat) (d : PageData) :
    (n.prog p d).2.log2_ppb = n.log2_ppb ∧ (n.prog p d).2.num_blocks = n.num_blocks := by
  unfold Nand.prog
  cases n.progErr p <;> simp

theorem Nand.copy_geom (n : Nand) (src dst : Nat) :
    (n.copy src dst).2.log2_ppb = n.log2_ppb ∧
      (n.copy src dst).2.num_blocks = n.num_blocks := by
  unfold Nand.copy
  cases n.copyErr src dst <;> simp

theorem skip_block_ok (j : JState) (hj : jstate_ok j) :
    jstate_ok (skip_block j).2 := by
  obtain ⟨hg, hh, ht, hts, hr, hrr⟩ := hj
  unfold skip_block
  dsimp only
  split
  · exact ⟨hg, hh, ht, hts, hr, hrr⟩
  · apply rollIfZero_ok
    exact jstate_ok_of_parts _ j rfl rfl rfl hg
      (block_start_ok j hg _ (next_block_lt j _ hg.2.2)) ht hts hr hrr

theorem prepareHeadLoop_ok (j : JState) (hj : jstate_ok j) :
    ∀ fuel, jstate_ok (prepareHeadLoop j fuel).2 := by
  intro fuel
  induction fuel generalizing j with
  | zero => exact hj
  | succ f ih =>
    simp only [prepareHeadLoop]
    split
    · rcases herase : j.nand.erase (j.head >>> j.nand.log2_ppb) with ⟨r, n1⟩
      dsimp only
      have hgeo := Nand.erase_geom j.nand (j.head >>> j.nand.log2_ppb)
      rw [herase] at hgeo
      exact jstate_ok_of_parts _ j rfl hgeo.1 hgeo.2 hj.1
        hj.2.1 hj.2.2.1 hj.2.2.2.1 hj.2.2.2.2.1 hj.2.2.2.2.2
    · have hj1 : jstate_ok { j with bb_current := j.bb_current + 1 } :=
        ⟨hj.1, hj.2⟩
      rcases hsb : skip_block { j with bb_current := j.bb_current + 1 } with ⟨r, j2⟩
      have hj2 : jstate_ok j2 := by
        have := skip_block_ok { j with bb_current := j.bb_current + 1 } hj1
        rwa [hsb] at this
      cases r with
      | error e => exact hj2
      | ok _ => exact ih j2 hj2

theorem prepare_head_ok (j : JState) (hj : jstate_ok j) :
    jstate_ok (prepare_head j).2 := by
  unfold prepare_head
  dsimp only
  split
  · exact hj
  · have hj1 : jstate_ok { j with dirty := true } := ⟨hj.1, hj.2⟩
    split
    · exact hj1
    · exact prepareHeadLoop_ok { j with dirty := true } hj1 MAX_RETRIES

theorem restart_recovery_ok (j : JState) (old_head : Nat) (hj : jstate_ok j) :
    jstate_ok (restart_recovery j old_head) := by
  obtain ⟨hg, hh, ht, hts, hr, hrr⟩ := hj
  unfold restart_recovery
  dsimp only
  split
  · exact jstate_ok_of_parts _ j rfl rfl rfl hg hh ht hts hrr hrr
  · exact jstate_ok_of_parts _ j rfl rfl rfl hg hh ht hts hrr hrr

theorem finish_recovery_ok (j : JState) (hj : jstate_ok j) :
    jstate_ok (finish_recovery j) := by
  obtain ⟨hg, hh, ht, hts, hr, hrr⟩ := hj
  unfold finish_recovery clear_recovery
  dsimp only
  split
  · exact jstate_ok_of_parts _ j rfl rfl rfl hg hh ht hts hr (Or.inl rfl)
  · exact jstate_ok_of_parts _ j rfl rfl rfl hg hh ht hts hr (Or.inl rfl)

theorem hdr_clear_user_ok (j : JState) (hj : jstate_ok j) :
    jstate_ok (hdr_clear_user j) := ⟨hj.1, hj.2⟩

theorem dumpMetaAttempt_ok (j : JState) (hj : jstate_ok j) :
    jstate_ok (dumpMetaAttempt j).2 := by
  unfold dumpMetaAttempt
  rcases hph : prepare_head j with ⟨r0, j1⟩
  have hj1 : jstate_ok j1 := by
    have := prepare_head_ok j hj
    rwa [hph] at this
  cases r0 with
  | error e => exact hj1
  | ok _ =>
    dsimp only
    rcases hpr : j1.nand.prog j1.head (.metaP j1.page_buf) with ⟨r1, n1⟩
    try rw [hpr]
    have hgeo := Nand.prog_geom j1.nand j1.head (.metaP j1.page_buf)
    rw [hpr] at hgeo
    have hj2 : jstate_ok { j1 with nand := n1 } :=
      jstate_ok_of_parts _ j1 rfl hgeo.1 hgeo.2 hj1.1 hj1.2.1 hj1.2.2.1
        hj1.2.2.2.1 hj1.2.2.2.2.1 hj1.2.2.2.2.2
    cases r1 with
    | error e => exact hj2
    | ok _ =>
      apply hdr_clear_user_ok
      apply rollIfZero_ok
      refine jstate_ok_of_parts _ { j1 with nand := n1 } rfl rfl rfl hj2.1
        ?_ hj2.2.2.1 hj2.2.2.2.1 hj2.2.2.2.2.1 hj2.2.2.2.2.2
      exact next_upage_ok { j1 with nand := n1 } hj2.1.1 (chip_pos _ hj2.1.2.2) _

theorem dumpMetaLoop_ok (j : JState) (hj : jstate_ok j) :
    ∀ fuel, jstate_ok (dumpMetaLoop j fuel).2 := by
  intro fuel
  induction fuel generalizing j with
  | zero => exact hj
  | succ f ih =>
    simp only [dumpMetaLoop]
    rcases hatt : dumpMetaAttempt j with ⟨att, j2⟩
    have hj2 : jstate_ok j2 := by
      have := dumpMetaAttempt_ok j hj
      rwa [hatt] at this
    match att with
    | .ok _ => exact hj2
    | .error .BadBlock =>
      dsimp only
      have hj4 : jstate_ok { j2 with
          bb_current := j2.bb_current + 1
          nand := j2.nand.mark_bad (j2.head >>> j2.nand.log2_ppb) } :=
        jstate_ok_of_parts _ j2 rfl rfl rfl hj2.1 hj2.2.1 hj2.2.2.1 hj2.2.2.2.1
          hj2.2.2.2.2.1 hj2.2.2.2.2.2
      rcases hsb : skip_block _ with ⟨r1, j5⟩
      have hj5 : jstate_ok j5 := by
        have := skip_block_ok _ hj4
        rwa [hsb] at this
      cases r1 with
      | error e2 => exact hj5
      | ok _ => exact ih j5 hj5
    | .error .ECC => exact hj2
    | .error .TooBad => exact hj2
    | .error .Recover => exact hj2
    | .error .JournalFull => exact hj2
    | .error .NotFound => exact hj2
    | .error .MapFull => exact hj2
    | .error .CorruptMap => exact hj2
    | .error .Max => exact hj2

theorem dump_meta_ok (j : JState) (hj : jstate_ok j) :
    jstate_ok (dump_meta j).2 :=
  dumpMetaLoop_ok j hj MAX_RETRIES

theorem recover_setup_ok (j2 : JState) (hj2 : jstate_ok j2) (x : Nat) :
    jstate_ok { j2 with recover_root := j2.root, recover_next := x } :=
  jstate_ok_of_parts _ j2 rfl rfl rfl hj2.1 hj2.2.1 hj2.2.2.1 hj2.2.2.2.1
    hj2.2.2.2.2.1 hj2.2.2.2.2.1

theorem recover_from_ok (j : JState) (e0 : DharaError) (hj : jstate_ok j) :
    jstate_ok (recover_from j e0).2 := by
  unfold recover_from
  cases e0 with
  | BadBlock =>
    dsimp only
    rcases hsb : skip_block { j with bb_current := j.bb_current + 1 } with ⟨r, j2⟩
    have hj2 : jstate_ok j2 := by
      have := skip_block_ok { j with bb_current := j.bb_current + 1 } ⟨hj.1, hj.2⟩
      rwa [hsb] at this
    cases r with
    | error e => exact hj2
    | ok _ =>
      dsimp only
      split
      · exact restart_recovery_ok j2 j.head hj2
      · split
        · exact jstate_ok_of_parts _ j2 rfl rfl rfl hj2.1 hj2.2.1 hj2.2.2.1
            hj2.2.2.2.1 hj2.2.2.2.2.1 hj2.2.2.2.2.2
        · have hj4 := recover_setup_ok j2 hj2
            (alignDownBits j2.root j2.nand.log2_ppb)
          split
          · rcases hdm : dump_meta { j2 with recover_root := j2.root, recover_next := alignDownBits j2.root j2.nand.log2_ppb } with ⟨r2, j5⟩
            have hj5 : jstate_ok j5 := by
              have := dump_meta_ok _ hj4
              rwa [hdm] at this
            cases r2 with
            | error e2 => exact hj5
            | ok _ => exact ⟨hj5.1, hj5.2⟩
          · exact ⟨hj4.1, hj4.2⟩
  | ECC => exact hj
  | TooBad => exact hj
  | Recover => exact hj
  | JournalFull => exact hj
  | NotFound => exact hj
  | MapFull => exact hj
  | CorruptMap => exact hj
  | Max => exact hj

theorem head_succ_ok (j : JState) (hg : geom_ok j) (hh : upage_ok j j.head)
    (hna : (j.head + 2) % 2 ^ j.log2_ppc ≠ 0) : upage_ok j (j.head + 1) := by
  refine ⟨hna, ?_⟩
  rcases Nat.lt_or_ge (j.head + 1) (chipSize j) with h | h
  · exact h
  · exfalso
    have heq : j.head + 1 = chipSize j := by
      have := hh.2
      omega
    have := hh.1
    rw [heq, chip_mod_ppc j hg.2.1] at this
    exact this rfl

theorem pushMetaFinish_ok (x : JState) (hx : jstate_ok x) :
    jstate_ok (pushMetaFinish x).2 := by
  unfold pushMetaFinish
  have h4 := rollIfZero_ok x hx
  dsimp only
  split
  · have h5 := finish_recovery_ok _ h4
    split
    · exact jstate_ok_of_parts _ (finish_recovery (rollIfZero x)) rfl rfl rfl h5.1
        h5.2.1 h5.2.2.1 h5.2.2.1 h5.2.2.2.2.1 h5.2.2.2.2.2
    · exact h5
  · split
    · exact jstate_ok_of_parts _ (rollIfZero x) rfl rfl rfl h4.1
        h4.2.1 h4.2.2.1 h4.2.2.1 h4.2.2.2.2.1 h4.2.2.2.2.2
    · exact h4

theorem prog_pair_geom (n : Nand) (p : Nat) (d : PageData)
    (r : Except DharaError Unit) (n1 : Nand) (h : n.prog p d = (r, n1)) :
    n1.log2_ppb = n.log2_ppb ∧ n1.num_blocks = n.num_blocks := by
  have := Nand.prog_geom n p d
  rw [h] at this
  exact this

theorem copy_pair_geom (n : Nand) (src dst : Nat)
    (r : Except DharaError Unit) (n1 : Nand) (h : n.copy src dst = (r, n1)) :
    n1.log2_ppb = n.log2_ppb ∧ n1.num_blocks = n.num_blocks := by
  have := Nand.copy_geom n src dst
  rw [h] at this
  exact this

theorem push_meta_ok (j : JState) (meta : Option Meta) (hj : jstate_ok j) :
    jstate_ok (push_meta j meta).2 := by
  unfold push_meta
  dsimp only
  split
  · rename_i hcond
    have hna : (j.head + 2) % 2 ^ j.log2_ppc ≠ 0 := by
      have hcond' : ¬ (is_aligned (j.head + 2) j.log2_ppc = true) := by
        simpa using hcond
      rwa [is_aligned_iff_mod] at hcond'
    exact jstate_ok_of_parts _ j rfl rfl rfl hj.1
      (head_succ_ok j hj.1 hj.2.1 hna) hj.2.2.1 hj.2.2.2.1 (Or.inr hj.2.1)
      hj.2.2.2.2.2
  · split
    · refine recover_from_ok _ _ (jstate_ok_of_parts _ j rfl ?_ ?_ hj.1
        hj.2.1 hj.2.2.1 hj.2.2.2.1 hj.2.2.2.2.1 hj.2.2.2.2.2)
      · exact (Nand.prog_geom _ _ _).1
      · exact (Nand.prog_geom _ _ _).2
    · refine pushMetaFinish_ok _ (jstate_ok_of_parts _ j rfl ?_ ?_ hj.1
        (next_upage_ok j hj.1.1 (chip_pos j hj.1.2.2) j.head) hj.2.2.1 hj.2.2.2.1
        (Or.inr hj.2.1) hj.2.2.2.2.2)
      · exact (Nand.prog_geom _ _ _).1
      · exact (Nand.prog_geom _ _ _).2

theorem enqueueLoop_ok (j : JState) (data : Option (List Nat)) (meta : Option Meta)
    (hj : jstate_ok j) : ∀ fuel, jstate_ok (enqueueLoop j data meta fuel).2 := by
  intro fuel
  induction fuel generalizing j with
  | zero => exact hj
  | succ f ih =>
    simp only [enqueueLoop]
    rcases hph : prepare_head j with ⟨r0, j1⟩
    have hj1 : jstate_ok j1 := by
      have := prepare_head_ok j hj
      rwa [hph] at this
    cases r0 with
    | ok _ =>
      dsimp only
      cases data with
      | none => exact push_meta_ok j1 meta hj1
      | some d =>
        dsimp only
        rcases hpr : j1.nand.prog j1.head (.user d) with ⟨r1, n1⟩
        try rw [hpr]
        have hgeo := prog_pair_geom _ _ _ _ _ hpr
        have hj2 : jstate_ok { j1 with nand := n1 } :=
          jstate_ok_of_parts _ j1 rfl hgeo.1 hgeo.2 hj1.1 hj1.2.1 hj1.2.2.1
            hj1.2.2.2.1 hj1.2.2.2.2.1 hj1.2.2.2.2.2
        cases r1 with
        | ok _ => exact push_meta_ok _ meta hj2
        | error e =>
          dsimp only
          rcases hrf : recover_from { j1 with nand := n1 } e with ⟨r2, j3⟩
          have hj3 : jstate_ok j3 := by
            have := recover_from_ok { j1 with nand := n1 } e hj2
            rwa [hrf] at this
          try rw [hrf]
          cases r2 with
          | error e2 => exact hj3
          | ok _ => exact ih j3 hj3
    | error e =>
      dsimp only
      rcases hrf : recover_from j1 e with ⟨r2, j3⟩
      have hj3 : jstate_ok j3 := by
        have := recover_from_ok j1 e hj1
        rwa [hrf] at this
      try rw [hrf]
      cases r2 with
      | error e2 => exact hj3
      | ok _ => exact ih j3 hj3

theorem copyLoop_ok (j : JState) (page : Nat) (meta : Option Meta)
    (hj : jstate_ok j) : ∀ fuel, jstate_ok (copyLoop j page meta fuel).2 := by
  intro fuel
  induction fuel generalizing j with
  | zero => exact hj
  | succ f ih =>
    simp only [copyLoop]
    rcases hph : prepare_head j with ⟨r0, j1⟩
    have hj1 : jstate_ok j1 := by
      have := prepare_head_ok j hj
      rwa [hph] at this
    cases r0 with
    | ok _ =>
      dsimp only
      rcases hcp : j1.nand.copy page j1.head with ⟨r1, n1⟩
      try rw [hcp]
      have hgeo := copy_pair_geom _ _ _ _ _ hcp
      have hj2 : jstate_ok { j1 with nand := n1 } :=
        jstate_ok_of_parts _ j1 rfl hgeo.1 hgeo.2 hj1.1 hj1.2.1 hj1.2.2.1
          hj1.2.2.2.1 hj1.2.2.2.2.1 hj1.2.2.2.2.2
      cases r1 with
      | ok _ => exact push_meta_ok _ meta hj2
      | error e =>
        dsimp only
        rcases hrf : recover_from { j1 with nand := n1 } e with ⟨r2, j3⟩
        have hj3 : jstate_ok j3 := by
          have := recover_from_ok { j1 with nand := n1 } e hj2
          rwa [hrf] at this
        try rw [hrf]
        cases r2 with
        | error e2 => exact hj3
        | ok _ => exact ih j3 hj3
    | error e =>
      dsimp only
      rcases hrf : recover_from j1 e with ⟨r2, j3⟩
      have hj3 : jstate_ok j3 := by
        have := recover_from_ok j1 e hj1
        rwa [hrf] at this
      try rw [hrf]
      cases r2 with
      | error e2 => exact hj3
      | ok _ => exact ih j3 hj3

theorem journal_enqueue_ok (j : JState) (data : Option (List Nat))
    (meta : Option Meta) (hj : jstate_ok j) :
    jstate_ok (journal_enqueue j data meta).2 :=
  enqueueLoop_ok j data meta hj MAX_RETRIES

theorem journal_copy_ok (j : JState) (page : Nat) (meta : Option Meta)
    (hj : jstate_ok j) : jstate_ok (journal_copy j page meta).2 :=
  copyLoop_ok j page meta hj MAX_RETRIES

theorem choosePpcLoop_ge (mm : Nat) :
    ∀ fuel total ppc, ppc ≤ choosePpcLoop mm fuel total ppc := by
  intro fuel
  induction fuel with
  | zero => intro total ppc; exact le_refl _
  | succ f ih =>
    intro total ppc
    simp only [choosePpcLoop]
    split
    · exact le_refl _
    · exact le_trans (by omega) (ih (2 * total + META_SIZE) (ppc + 1))

theorem choosePpcLoop_le (mm : Nat) :
    ∀ fuel total ppc, choosePpcLoop mm fuel total ppc ≤ ppc + fuel := by
  intro fuel
  induction fuel with
  | zero => intro total ppc; exact le_refl _
  | succ f ih =>
    intro total ppc
    simp only [choosePpcLoop]
    split
    · omega
    · exact le_trans (ih (2 * total + META_SIZE) (ppc + 1)) (by omega)

theorem reset_journal_ok (x : JState) (hg : geom_ok x) :
    jstate_ok (reset_journal x) := by
  have h2 : 2 ≤ 2 ^ x.log2_ppc := by
    calc 2 = 2 ^ 1 := (pow_one 2).symm
    _ ≤ 2 ^ x.log2_ppc := Nat.pow_le_pow_right (by norm_num) hg.1
  have hz : upage_ok x 0 := by
    refine ⟨?_, chip_pos x hg.2.2⟩
    rw [Nat.mod_eq_of_lt (by omega)]
    omega
  exact ⟨hg, hz, hz, hz, Or.inl rfl, Or.inl rfl⟩

theorem journal_new_ok (nand : Nand) (hppb : 1 ≤ nand.log2_ppb)
    (hnb : 1 ≤ nand.num_blocks) : jstate_ok (journal_new nand) := by
  unfold journal_new
  apply reset_journal_ok
  refine ⟨?_, ?_, hnb⟩
  · exact choosePpcLoop_ge _ _ _ _
  · calc choose_ppc nand.log2_page_size nand.log2_ppb
        ≤ 1 + (nand.log2_ppb - 1) := choosePpcLoop_le _ _ _ _
    _ ≤ nand.log2_ppb := by omega

theorem findCheckblockLoop_scan :
    ∀ (fuel : Nat) (j : JState) (blk : Nat),
      (findCheckblockLoop j blk fuel).2 =
        { j with page_buf := (findCheckblockLoop j blk fuel).2.page_buf } := by
  intro fuel
  induction fuel with
  | zero => intro j blk; rfl
  | succ f ih =>
    intro j blk
    simp only [findCheckblockLoop]
    split
    · split
      · rcases hrb : j.nand.readBuf j.log2_ppc
            ((blk <<< j.nand.log2_ppb) ||| ((1 <<< j.log2_ppc) - 1)) with _ | buf
        · exact ih j (blk + 1)
        · dsimp only
          split
          · rfl
          · exact ih { j with page_buf := buf } (blk + 1)
      · exact ih j (blk + 1)
    · rfl

theorem find_checkblock_scan (j : JState) (blk : Nat) :
    (find_checkblock j blk).2 = { j with page_buf := (find_checkblock j blk).2.page_buf } :=
  findCheckblockLoop_scan MAX_RETRIES j blk

theorem findLastCheckblockLoop_scan :
    ∀ (fuel : Nat) (j : JState) (first low high : Nat),
      (findLastCheckblockLoop j first low high fuel).2 =
        { j with page_buf := (findLastCheckblockLoop j first low high fuel).2.page_buf } := by
  intro fuel
  induction fuel with
  | zero => intro j first low high; rfl
  | succ f ih =>
    intro j first low high
    simp only [findLastCheckblockLoop]
    split
    · rcases hfc : find_checkblock j ((u32add low high) >>> 1) with ⟨found, j1⟩
      have hs1 : j1 = { j with page_buf := j1.page_buf } := by
        have := find_checkblock_scan j ((u32add low high) >>> 1)
        rwa [hfc] at this
      cases found with
      | error e =>
        dsimp only
        rw [if_pos (by simp)]
        split
        · exact hs1
        · rw [hs1]
          exact ih _ first low _
      | ok v =>
        dsimp only
        simp only [Bool.false_or]
        split
        · split
          · exact hs1
          · rw [hs1]
            exact ih _ first low _
        · split
          · exact hs1
          · rcases hfc2 : find_checkblock j1 (v + 1) with ⟨nf, j2⟩
            have hs2 : j2 = { j with page_buf := j2.page_buf } := by
              have h := find_checkblock_scan j1 (v + 1)
              rw [hfc2] at h
              dsimp only at h
              calc j2 = { j1 with page_buf := j2.page_buf } := h
              _ = { j with page_buf := j2.page_buf } := by rw [hs1]
            split
            · exact hs2
            · cases nf with
              | error e2 => exact hs2
              | ok nfv =>
                rw [hs2]
                exact ih _ first nfv high
    · rfl

theorem findLastGroupLoop_id (j : JState) (block num_groups : Nat) :
    ∀ fuel low high, (findLastGroupLoop j block num_groups low high fuel).2 = j := by
  intro fuel
  induction fuel with
  | zero => intro low high; rfl
  | succ f ih =>
    intro low high
    simp only [findLastGroupLoop]
    split
    · split
      · exact ih low _
      · split
        · rfl
        · exact ih _ high
    · rfl

theorem upage_zero (j : JState) (hg : geom_ok j) : upage_ok j 0 := by
  have h2 : 2 ≤ 2 ^ j.log2_ppc := by
    calc 2 = 2 ^ 1 := (pow_one 2).symm
    _ ≤ 2 ^ j.log2_ppc := Nat.pow_le_pow_right (by norm_num) hg.1
  exact ⟨by rw [Nat.mod_eq_of_lt (by omega)]; omega, chip_pos j hg.2.2⟩

theorem findRootLoop_spec :
    ∀ i (j : JState) (block : Nat), geom_ok j →
      (∀ p, chipSize j ≤ p → j.nand.page p = .free) →
      (((findRootLoop j block i).1 = .error .TooBad ∧
        (findRootLoop j block i).2 =
          { j with page_buf := (findRootLoop j block i).2.page_buf }) ∨
      ((findRootLoop j block i).1 = .ok () ∧
        ∃ pg mp b, j.nand.page mp = .metaP b ∧
          (findRootLoop j block i).2 = { j with page_buf := b, root := pg } ∧
          upage_ok j pg)) := by
  intro i
  induction i using Nat.strong_induction_on with
  | _ i ih =>
    intro j block hg hfree
    have h2 : 2 ≤ 2 ^ j.log2_ppc := by
      calc 2 = 2 ^ 1 := (pow_one 2).symm
      _ ≤ 2 ^ j.log2_ppc := Nat.pow_le_pow_right (by norm_num) hg.1
    rw [findRootLoop]
    set P := (block <<< j.nand.log2_ppb) + ((i + 1) <<< j.log2_ppc) - 1 with hP
    rcases hre : j.nand.readErr P with _ | e
    · -- successful read
      have hrb : j.nand.readBuf j.log2_ppc P =
          .ok (bufOfPage j.log2_ppc (j.nand.page P)) := by
        unfold Nand.readBuf
        rw [hre]
      rw [hrb]
      dsimp only
      set B := bufOfPage j.log2_ppc (j.nand.page P) with hB
      by_cases hc : (hdr_has_magic { j with page_buf := B } && (hdr_get_epoch { j with page_buf := B } == j.epoch)) = true
      · rw [if_pos (by simpa using hc)]
        right
        refine ⟨rfl, ?_⟩
        have hmagic : (bufOfPage j.log2_ppc (j.nand.page P)).magic = true := by
          have hh := ((Bool.and_eq_true _ _).mp hc).1
          rw [hB] at hh
          exact hh
        have hmeta : ∃ b, j.nand.page P = .metaP b := by
          cases hp : j.nand.page P with
          | free => rw [hp] at hmagic; exact absurd hmagic (by simp [bufOfPage, blankBuf])
          | user d => rw [hp] at hmagic; exact absurd hmagic (by simp [bufOfPage, blankBuf])
          | metaP b => exact ⟨b, rfl⟩
        obtain ⟨b, hb⟩ := hmeta
        have hplt : P < chipSize j := by
          by_contra hge
          push_neg at hge
          rw [hfree P hge] at hb
          exact PageData.noConfusion hb
        refine ⟨P - 1, P, b, hb, by rw [hB, hb]; rfl, ?_⟩
        -- P - 1 is a user-page position
        obtain ⟨c2, hc2⟩ : (2 ^ j.log2_ppc : Nat) ∣ 2 ^ j.nand.log2_ppb :=
          pow_dvd_pow 2 hg.2.1
        have hA : block <<< j.nand.log2_ppb = 2 ^ j.log2_ppc * (c2 * block) := by
          rw [Nat.shiftLeft_eq, hc2]; ring
        have hB2 : (i + 1) <<< j.log2_ppc = (i + 1) * 2 ^ j.log2_ppc := by
          rw [Nat.shiftLeft_eq]
        have hsum : block <<< j.nand.log2_ppb + (i + 1) <<< j.log2_ppc =
            2 ^ j.log2_ppc * (c2 * block + i) + 2 ^ j.log2_ppc := by
          rw [hA, hB2]; ring
        have hpage2 : P = 2 ^ j.log2_ppc * (c2 * block + i) + (2 ^ j.log2_ppc - 1) := by
          rw [hP, hsum]; omega
        constructor
        · have hp1 : P - 1 + 1 = P := by omega
          rw [hp1, hpage2, Nat.mul_add_mod, Nat.mod_eq_of_lt (by omega)]
          omega
        · omega
      · rw [if_neg (by simpa using hc)]
        match i with
        | 0 => exact .inl ⟨rfl, rfl⟩
        | i' + 1 => exact ih i' (by omega) _ block hg hfree
    · -- read failure: page_buf untouched, fall through
      have hrb : j.nand.readBuf j.log2_ppc P = .error e := by
        unfold Nand.readBuf
        rw [hre]
      rw [hrb]
      dsimp only
      rw [if_neg (by simp)]
      match i with
      | 0 => exact .inl ⟨rfl, rfl⟩
      | i' + 1 => exact ih i' (by omega) _ block hg hfree

theorem countFreeTrailingLoop_le (j : JState) (first ppc : Nat) :
    ∀ fuel n, n ≤ ppc → countFreeTrailingLoop j first ppc fuel n ≤ ppc := by
  intro fuel
  induction fuel with
  | zero => intro n hn; exact hn
  | succ f ih =>
    intro n hn
    rw [countFreeTrailingLoop]
    split
    · rename_i hcnd
      have hlt : n < ppc := by
        have hparts := (Bool.and_eq_true _ _).mp hcnd
        exact of_decide_eq_true hparts.1
      exact ih (n + 1) hlt
    · exact hn

theorem alignDownBits_eq (p c : Nat) : alignDownBits p c = 2 ^ c * (p / 2 ^ c) := by
  unfold alignDownBits
  rw [Nat.shiftRight_eq_div_pow, Nat.shiftLeft_eq]
  ring

theorem roll_stats_ok (x : JState) (hx : jstate_ok x) : jstate_ok (roll_stats x) :=
  ⟨hx.1, hx.2⟩

/-- The head position first + ppc - n chosen by find_head when more than
one trailing page of the group is free is a user-page position. -/
theorem head_advance_ok (j : JState) (hg : geom_ok j) (hhd : j.head < chipSize j)
    (n : Nat) (hn2 : 1 < n) (hnle : n ≤ 1 <<< j.log2_ppc) :
    upage_ok j (alignDownBits j.head j.log2_ppc + (1 <<< j.log2_ppc) - n) := by
  have hmm : (1 <<< j.log2_ppc) = 2 ^ j.log2_ppc := by rw [Nat.shiftLeft_eq, one_mul]
  have h2 : 2 ≤ 2 ^ j.log2_ppc := by
    calc 2 = 2 ^ 1 := (pow_one 2).symm
    _ ≤ 2 ^ j.log2_ppc := Nat.pow_le_pow_right (by norm_num) hg.1
  rw [hmm] at hnle ⊢
  rw [alignDownBits_eq]
  obtain ⟨cc, hcc⟩ : (2 ^ j.log2_ppc : Nat) ∣ chipSize j :=
    Nat.dvd_of_mod_eq_zero (chip_mod_ppc j hg.2.1)
  have hqlt : j.head / 2 ^ j.log2_ppc < cc := by
    rw [hcc] at hhd
    exact (Nat.div_lt_iff_lt_mul (by omega)).mpr (lt_of_lt_of_eq hhd (mul_comm _ _))
  have hub : 2 ^ j.log2_ppc * (j.head / 2 ^ j.log2_ppc + 1) ≤ chipSize j := by
    rw [hcc]
    exact Nat.mul_le_mul_left _ hqlt
  have hexp : 2 ^ j.log2_ppc * (j.head / 2 ^ j.log2_ppc + 1) =
      2 ^ j.log2_ppc * (j.head / 2 ^ j.log2_ppc) + 2 ^ j.log2_ppc := by ring
  constructor
  · have he : 2 ^ j.log2_ppc * (j.head / 2 ^ j.log2_ppc) + 2 ^ j.log2_ppc - n + 1 =
        2 ^ j.log2_ppc * (j.head / 2 ^ j.log2_ppc) + (2 ^ j.log2_ppc - n + 1) := by
      omega
    rw [he, Nat.mul_add_mod, Nat.mod_eq_of_lt (by omega)]
    omega
  · omega

/-- The head position first + ppc (start of the next checkpoint group),
when it does not run off the chip, is a user-page position. -/
theorem head_group_start_ok (j : JState) (hg : geom_ok j)
    (hlt : alignDownBits j.head j.log2_ppc + (1 <<< j.log2_ppc) < chipSize j) :
    upage_ok j (alignDownBits j.head j.log2_ppc + (1 <<< j.log2_ppc)) := by
  have hmm : (1 <<< j.log2_ppc) = 2 ^ j.log2_ppc := by rw [Nat.shiftLeft_eq, one_mul]
  have h2 : 2 ≤ 2 ^ j.log2_ppc := by
    calc 2 = 2 ^ 1 := (pow_one 2).symm
    _ ≤ 2 ^ j.log2_ppc := Nat.pow_le_pow_right (by norm_num) hg.1
  refine ⟨?_, hlt⟩
  rw [hmm, alignDownBits_eq]
  have he : 2 ^ j.log2_ppc * (j.head / 2 ^ j.log2_ppc) + 2 ^ j.log2_ppc + 1 =
      2 ^ j.log2_ppc * (j.head / 2 ^ j.log2_ppc + 1) + 1 := by ring
  rw [he, Nat.mul_add_mod, Nat.mod_eq_of_lt (by omega)]
  omega

theorem findHeadLoop_ok : ∀ fuel (j : JState), jstate_ok j →
    jstate_ok (findHeadLoop j fuel) := by
  intro fuel
  induction fuel with
  | zero => intro j hj; exact hj
  | succ f ih =>
    intro j hj
    obtain ⟨hg, hptr⟩ := hj
    have hj0 : jstate_ok (roll_stats { j with head := 0 }) :=
      roll_stats_ok _ (jstate_ok_of_parts _ j rfl rfl rfl hg (upage_zero j hg)
        hptr.2.1 hptr.2.2.1 hptr.2.2.2.1 hptr.2.2.2.2)
    simp only [findHeadLoop]
    split_ifs with h1 h2 h3 h4 h5 h6
    · -- more than one trailing free page: head moves inside the group
      refine jstate_ok_of_parts _ j rfl rfl rfl hg ?_
        hptr.2.1 hptr.2.2.1 hptr.2.2.2.1 hptr.2.2.2.2
      exact head_advance_ok j hg hptr.1.2 _ h1
        (countFreeTrailingLoop_le j _ _ _ 0 (Nat.zero_le _))
    · -- rolled to head 0, block-aligned, tail collides: tail moves to next block
      have hj2 : jstate_ok (roll_stats { j with head := 0 }) := hj0
      refine jstate_ok_of_parts _ (roll_stats { j with head := 0 }) rfl rfl rfl
        hj2.1 hj2.2.1 ?_ hj2.2.2.2.1 hj2.2.2.2.2.1 hj2.2.2.2.2.2
      exact block_start_ok _ hj2.1 _ (next_block_lt _ _ hj2.1.2.2)
    · -- rolled to head 0, block-aligned, no tail collision
      exact hj0
    · -- rolled to head 0, not block-aligned: next iteration
      exact ih _ hj0
    · -- head moved to next group on-chip, block-aligned, tail collides
      have hch2 : ¬ (chipSize j ≤ alignDownBits j.head j.log2_ppc + (1 <<< j.log2_ppc)) := h2
      have hjF : jstate_ok ({ j with
          head := alignDownBits j.head j.log2_ppc + (1 <<< j.log2_ppc) } : JState) :=
        jstate_ok_of_parts _ j rfl rfl rfl hg
          (head_group_start_ok j hg (by omega))
          hptr.2.1 hptr.2.2.1 hptr.2.2.2.1 hptr.2.2.2.2
      refine jstate_ok_of_parts _ ({ j with
          head := alignDownBits j.head j.log2_ppc + (1 <<< j.log2_ppc) } : JState)
        rfl rfl rfl hjF.1 hjF.2.1 ?_ hjF.2.2.2.1 hjF.2.2.2.2.1 hjF.2.2.2.2.2
      exact block_start_ok _ hjF.1 _ (next_block_lt _ _ hjF.1.2.2)
    · -- head moved to next group on-chip, block-aligned, no tail collision
      have hch2 : ¬ (chipSize j ≤ alignDownBits j.head j.log2_ppc + (1 <<< j.log2_ppc)) := h2
      exact jstate_ok_of_parts _ j rfl rfl rfl hg
        (head_group_start_ok j hg (by omega))
        hptr.2.1 hptr.2.2.1 hptr.2.2.2.1 hptr.2.2.2.2
    · -- head moved to next group on-chip, not block-aligned: next iteration
      have hch2 : ¬ (chipSize j ≤ alignDownBits j.head j.log2_ppc + (1 <<< j.log2_ppc)) := h2
      exact ih _ (jstate_ok_of_parts _ j rfl rfl rfl hg
        (head_group_start_ok j hg (by omega))
        hptr.2.1 hptr.2.2.1 hptr.2.2.2.1 hptr.2.2.2.2)

/-- find_head immediately overwrites head with next_upage(start), so the
incoming head needs no constraint. -/
theorem find_head_ok (j : JState) (start : Nat) (hg : geom_ok j)
    (ht : upage_ok j j.tail) (hts : upage_ok j j.tail_sync)
    (hr : j.root = PAGE_NONE ∨ upage_ok j j.root)
    (hrr : j.recover_root = PAGE_NONE ∨ upage_ok j j.recover_root) :
    jstate_ok (find_head j start) := by
  unfold find_head
  apply findHeadLoop_ok
  apply rollIfZero_ok
  exact jstate_ok_of_parts _ j rfl rfl rfl hg
    (next_upage_ok j hg.1 (chip_pos j hg.2.2) start) ht hts hr hrr

theorem clear_recovery_ok (x : JState) (hx : jstate_ok x) :
    jstate_ok (clear_recovery x) :=
  jstate_ok_of_parts _ x rfl rfl rfl hx.1 hx.2.1 hx.2.2.1 hx.2.2.2.1
    hx.2.2.2.2.1 (Or.inl rfl)

theorem find_last_checkblock_scan (j : JState) (first : Nat) :
    (find_last_checkblock j first).2 =
      { j with page_buf := (find_last_checkblock j first).2.page_buf } := by
  unfold find_last_checkblock
  exact findLastCheckblockLoop_scan _ _ _ _ _

theorem find_last_group_scan (j : JState) (blk : Nat) :
    (find_last_group j blk).2 = j := by
  unfold find_last_group
  exact findLastGroupLoop_id j blk _ 64 0 _

theorem find_root_spec (j : JState) (start : Nat) (hg : geom_ok j)
    (hfree : ∀ p, chipSize j ≤ p → j.nand.page p = .free) :
    ((find_root j start).1 = .error .TooBad ∧
      (find_root j start).2 = { j with page_buf := (find_root j start).2.page_buf }) ∨
    ((find_root j start).1 = .ok () ∧
      ∃ pg mp b, j.nand.page mp = .metaP b ∧
        (find_root j start).2 = { j with page_buf := b, root := pg } ∧
        upage_ok j pg) := by
  unfold find_root
  exact findRootLoop_spec _ j _ hg hfree

set_option maxHeartbeats 1600000 in
theorem journal_resume_ok (j : JState) (hj : jstate_ok j) (hw : nand_wf j) :
    jstate_ok (journal_resume j).2 := by
  obtain ⟨hg, hptr⟩ := hj
  unfold journal_resume
  rcases hfc : find_checkblock j 0 with ⟨r1, j1⟩
  have hs1 : j1 = { j with page_buf := j1.page_buf } := by
    have h := find_checkblock_scan j 0
    rwa [hfc] at h
  cases r1 with
  | error e =>
    exact reset_journal_ok j1 (by rw [hs1]; exact hg)
  | ok first =>
    dsimp only
    rcases hflc : find_last_checkblock { j1 with epoch := hdr_get_epoch j1 } first
      with ⟨last, j3⟩
    have hs3 : j3 = { ({ j1 with epoch := hdr_get_epoch j1 } : JState) with
        page_buf := j3.page_buf } := by
      have h := find_last_checkblock_scan { j1 with epoch := hdr_get_epoch j1 } first
      rwa [hflc] at h
    dsimp only
    rcases hflg : find_last_group j3 last with ⟨last_group, j4⟩
    have hs4 : j4 = j3 := by
      have h := find_last_group_scan j3 last
      rwa [hflg] at h
    subst hs4
    dsimp only
    have hj3 : jstate_ok j4 := by rw [hs3, hs1]; exact ⟨hg, hptr⟩
    have hw3 : nand_wf j4 := by rw [hs3, hs1]; exact hw
    rcases hfr : find_root j4 last_group with ⟨r5, j5⟩
    have spec := find_root_spec j4 last_group hj3.1 hw3.2
    rw [hfr] at spec
    dsimp only at spec
    cases r5 with
    | error e =>
      have hg5 : geom_ok j5 := by
        rcases spec with ⟨_, heq⟩ | ⟨_, pg, mp, b, _, heq, _⟩ <;>
          rw [heq] <;> exact hj3.1
      exact reset_journal_ok j5 hg5
    | ok u =>
      cases u
      dsimp only
      rcases spec with ⟨hbad, _⟩ | ⟨_, pg, mp, b, hmp, heq, hupg⟩
      · exact absurd hbad (by simp)
      · subst heq
        have htail : upage_ok j4 b.hdrTail := hw3.1 mp b hmp
        have hj6 : jstate_ok ({ ({ j4 with page_buf := b, root := pg } : JState) with
            tail := hdr_get_tail { j4 with page_buf := b, root := pg }
            bb_current := hdr_get_bb_current { j4 with page_buf := b, root := pg }
            bb_last := hdr_get_bb_last { j4 with page_buf := b, root := pg } } : JState) :=
          jstate_ok_of_parts _ j4 rfl rfl rfl hj3.1 hj3.2.1 htail hj3.2.2.2.1
            (Or.inr hupg) hj3.2.2.2.2.2
        have hj7 := hdr_clear_user_ok _ hj6
        have hj8 := find_head_ok _ last_group hj7.1 hj7.2.2.1 hj7.2.2.2.1
          hj7.2.2.2.2.1 hj7.2.2.2.2.2
        exact clear_recovery_ok _ (jstate_ok_of_parts _ _ rfl rfl rfl hj8.1
          hj8.2.1 hj8.2.2.1 hj8.2.2.1 hj8.2.2.2.2.1 hj8.2.2.2.2.2)

/-- C6: across every journal operation (new, resume, enqueue, copy,
dequeue, peek, clear), the pointers head, tail and tail_sync always
reference user-page positions — their low log2_ppc bits are never all
ones and they are strictly below num_blocks << log2_ppb — and root is
PAGE_NONE or such a position (jstate_ok packages exactly these
conditions as ptr_inv).  journal_new establishes the invariant on any
geometry with log2_ppb ≥ 1 and at least one block; journal_resume
preserves it on any well-formed NAND image (meta headers store
user-page tails and off-chip pages read erased); the remaining
operations preserve it unconditionally. -/
theorem journal_pointers_user_positions :
    (∀ nand : Nand, 1 ≤ nand.log2_ppb → 1 ≤ nand.num_blocks →
      jstate_ok (journal_new nand)) ∧
    (∀ j : JState, jstate_ok j → nand_wf j → jstate_ok (journal_resume j).2) ∧
    (∀ (j : JState) (data : Option (List Nat)) (meta : Option Meta),
      jstate_ok j → jstate_ok (journal_enqueue j data meta).2) ∧
    (∀ (j : JState) (page : Nat) (meta : Option Meta),
      jstate_ok j → jstate_ok (journal_copy j page meta).2) ∧
    (∀ j : JState, jstate_ok j → jstate_ok (journal_dequeue j)) ∧
    (∀ j : JState, jstate_ok j → jstate_ok (journal_peek j).2) ∧
    (∀ j : JState, jstate_ok j → jstate_ok (journal_clear j)) :=
  ⟨fun n h1 h2 => journal_new_ok n h1 h2,
   fun j hj hw => journal_resume_ok j hj hw,
   fun j d m hj => journal_enqueue_ok j d m hj,
   fun j p m hj => journal_copy_ok j p m hj,
   fun j hj => journal_dequeue_ok j hj,
   fun j hj => journal_peek_ok j hj,
   fun j hj => journal_clear_ok j hj⟩

theorem journal_pointers_user_positions_witness :
    (1 ≤ simpleNand.log2_ppb ∧ 1 ≤ simpleNand.num_blocks ∧
      jstate_ok (journal_new simpleNand)) ∧
    (jstate_ok testJournal ∧ nand_wf testJournal ∧
      jstate_ok (journal_resume testJournal).2) ∧
    jstate_ok (journal_enqueue testJournal none none).2 ∧
    jstate_ok (journal_copy testJournal 0 none).2 ∧
    jstate_ok (journal_dequeue testJournal) ∧
    jstate_ok (journal_peek testJournal).2 ∧
    jstate_ok (journal_clear testJournal) := by
  have hok : jstate_ok testJournal := by
    unfold jstate_ok geom_ok ptr_inv upage_ok
    decide
  have hwf : nand_wf testJournal := ⟨(fun p b h => nomatch h), fun p hp => rfl⟩
  exact ⟨⟨by decide, by decide,
      journal_pointers_user_positions.1 simpleNand (by decide) (by decide)⟩,
    ⟨hok, hwf, journal_pointers_user_positions.2.1 testJournal hok hwf⟩,
    journal_pointers_user_positions.2.2.1 testJournal none none hok,
    journal_pointers_user_positions.2.2.2.1 testJournal 0 none hok,
    journal_pointers_user_positions.2.2.2.2.1 testJournal hok,
    journal_pointers_user_positions.2.2.2.2.2.1 testJournal hok,
    journal_pointers_user_positions.2.2.2.2.2.2 testJournal hok⟩

end Dhara
